import Mathlib

/-!
# Collision-geometry catalog and runtime state of Pinocchio

A shallow embedding of `src/multibody/geometry.hxx` (the build with the
collision backend enabled) together with theorems about it.

Conventions of the embedding.

* `std::size_t` indices (`GeomIndex`, `JointIndex`, `FrameIndex`, `PairIndex`)
  are natural numbers.  No operation of this file computes with an index other
  than `ngeoms++` and the loop counters, and containers of `2^63` elements
  cannot exist, so wrap-around never occurs on a run of the program.
* `std::vector` is `List`; `v[i]` outside the range of `v` is undefined
  behaviour in C++ and is reported here as the outcome `Error.outOfRange`.
* A member function that mutates `*this` and may throw is a function from the
  state before the call to a pair: the outcome (`Except Error α`) and the state
  at the point where the call returned or threw.  So "the call raised and the
  object is unchanged" is a statement about both components.
-/

namespace Pinocchio

/-- Outcomes other than normal return.

`invalidArgument` is what `PINOCCHIO_CHECK_INPUT_ARGUMENT` raises and
`sizeMismatch` what `PINOCCHIO_CHECK_ARGUMENT_SIZE` raises (both macros are
declared outside `geometry.hxx`; the two kinds are those of the design
document, section 7).  `outOfRange` is not a C++ exception: it marks an access
outside the bounds of a vector or a matrix, which is undefined behaviour. -/
inductive Error where
  | invalidArgument
  | sizeMismatch
  | outOfRange
  deriving DecidableEq, Repr

deriving instance DecidableEq for Except

/-! The index types `GeomIndex`, `JointIndex`, `FrameIndex` and `PairIndex` of
the source are all `std::size_t`; they are written `Nat` below. -/

/-- Modelled from the spec: the class `CollisionPair` is declared outside
`geometry.hxx`.  It is a pair of geometry indices (`first`, `second`) whose
equality is order-sensitive: `(a,b)` and `(b,a)` are different pairs. -/
structure CollisionPair where
  first : Nat
  second : Nat
  deriving DecidableEq, Repr

/-- Modelled from the spec: `GeometryObject` is declared outside
`geometry.hxx`.  Only the attributes read or written by `geometry.hxx` are
kept: the name, the parent frame and the parent joint (shape and placement
data are never inspected by this code). -/
structure GeometryObject where
  name : String
  parentFrame : Nat
  parentJoint : Nat
  deriving DecidableEq, Repr

/-- Modelled from the spec: a frame of the kinematic model; only its parent
joint (`parent`) is read. -/
structure Frame where
  parent : Nat
  deriving DecidableEq, Repr

/-- Modelled from the spec: the kinematic model as seen by
`addGeometryObject`: the frame count `nframes` and the vector `frames`. -/
structure Model where
  nframes : Nat
  frames : List Frame
  deriving DecidableEq, Repr

/-- The geometry catalog (`GeometryModel`): the count `ngeoms`, the vector
`geometryObjects` and the vector `collisionPairs`.  All three are public data
members, so a value of this type need not come from the member functions. -/
structure GeometryModel where
  ngeoms : Nat
  geometryObjects : List GeometryObject
  collisionPairs : List CollisionPair
  deriving DecidableEq, Repr

/-- Modelled from the spec: the default constructor of `GeometryModel`
(declared outside `geometry.hxx`) gives the empty catalog. -/
def GeometryModel.empty : GeometryModel := ⟨0, [], []⟩

/-- Modelled from the spec: the dense boolean matrix type `MatrixXb` (Eigen):
`rows()`, `cols()` and the coefficients. -/
structure MatrixXb where
  rows : Nat
  cols : Nat
  coeff : Nat → Nat → Bool

/-- Coefficient access `map(i,j)`; outside the matrix it is undefined. -/
def MatrixXb.get (map : MatrixXb) (i j : Nat) : Except Error Bool :=
  if i < map.rows ∧ j < map.cols then .ok (map.coeff i j) else .error .outOfRange

/-- Modelled from the spec: the transposed matrix. -/
def MatrixXb.transpose (map : MatrixXb) : MatrixXb :=
  ⟨map.cols, map.rows, fun i j => map.coeff j i⟩

/-- A `for` loop (or `BOOST_FOREACH`) over the values `xs`, running `body` on
the state; the first iteration that does not return normally ends the loop
with its outcome and the state it left. -/
def forEach {α σ : Type} (body : α → σ → Except Error Unit × σ) :
    List α → σ → Except Error Unit × σ
  | [], s => (.ok (), s)
  | x :: xs, s =>
    match body x s with
    | (.ok _, s1) => forEach body xs s1
    | (.error e, s1) => (.error e, s1)

/-- The values taken by `i` in `for (i = lo; i < hi; ++i)`. -/
def loopRange (lo hi : Nat) : List Nat := List.range' lo (hi - lo)

/-- `std::find(v.begin(), v.end(), x) - v.begin()`: position of the first
element equal to `x`, or the size of `v`. -/
def stdFind {α : Type} [DecidableEq α] (v : List α) (x : α) : Nat :=
  v.findIdx (fun y => decide (y = x))

namespace GeometryModel

/-- `GeometryModel::addGeometryObject(object, model)`, lines 70-82. -/
def addGeometryObjectWithModel (m : GeometryModel) (object : GeometryObject)
    (model : Model) : Except Error Nat × GeometryModel :=
  let check : Except Error Unit :=
    if object.parentFrame < model.nframes then
      match model.frames[object.parentFrame]? with
      | none => .error .outOfRange
      | some fr =>
        if fr.parent = object.parentJoint then .ok () else .error .invalidArgument
    else .ok ()
  match check with
  | .error e => (.error e, m)
  | .ok _ =>
    let idx := m.ngeoms
    let m1 : GeometryModel :=
      { m with ngeoms := m.ngeoms + 1, geometryObjects := m.geometryObjects ++ [object] }
    match model.frames[object.parentFrame]? with
    | none => (.error .outOfRange, m1)
    | some fr =>
      (.ok idx, { m1 with geometryObjects :=
          m.geometryObjects ++ [{ object with parentJoint := fr.parent }] })

/-- `GeometryModel::addGeometryObject(object)`, lines 84-89. -/
def addGeometryObject (m : GeometryModel) (object : GeometryObject) :
    Except Error Nat × GeometryModel :=
  (.ok m.ngeoms,
    { m with ngeoms := m.ngeoms + 1, geometryObjects := m.geometryObjects ++ [object] })

/-- `GeometryModel::getGeometryId`, lines 91-102 (`std::find_if` on the name). -/
def getGeometryId (m : GeometryModel) (name : String) : Nat :=
  m.geometryObjects.findIdx (fun g => decide (g.name = name))

/-- `GeometryModel::existGeometryName`, lines 104-112. -/
def existGeometryName (m : GeometryModel) (name : String) : Bool :=
  decide (m.geometryObjects.findIdx (fun g => decide (g.name = name))
    ≠ m.geometryObjects.length)

/-- `GeometryModel::existCollisionPair`, lines 222-227. -/
def existCollisionPair (m : GeometryModel) (pair : CollisionPair) : Bool :=
  decide (stdFind m.collisionPairs pair ≠ m.collisionPairs.length)

/-- `GeometryModel::findCollisionPair`, lines 229-236. -/
def findCollisionPair (m : GeometryModel) (pair : CollisionPair) : Nat :=
  stdFind m.collisionPairs pair

/-- `GeometryModel::removeAllCollisionPairs`, line 220. -/
def removeAllCollisionPairs (m : GeometryModel) : GeometryModel :=
  { m with collisionPairs := [] }

/-- `GeometryModel::addCollisionPair`, lines 157-164. -/
def addCollisionPair (m : GeometryModel) (pair : CollisionPair) :
    Except Error Unit × GeometryModel :=
  if ¬ pair.first < m.ngeoms then (.error .invalidArgument, m)
  else if ¬ pair.second < m.ngeoms then (.error .invalidArgument, m)
  else if ! m.existCollisionPair pair then
    (.ok (), { m with collisionPairs := m.collisionPairs ++ [pair] })
  else (.ok (), m)

/-- Body of the inner loop of `addCollisionPairs`, lines 178-187. -/
def addCollisionPairsBody (map : MatrixXb) (upper : Bool) (i j : Nat)
    (m : GeometryModel) : Except Error Unit × GeometryModel :=
  if upper then
    match map.get i j with
    | .error e => (.error e, m)
    | .ok true => (.ok (), { m with collisionPairs := m.collisionPairs ++ [⟨i, j⟩] })
    | .ok false => (.ok (), m)
  else
    match map.get j i with
    | .error e => (.error e, m)
    | .ok true => (.ok (), { m with collisionPairs := m.collisionPairs ++ [⟨i, j⟩] })
    | .ok false => (.ok (), m)

/-- `GeometryModel::addCollisionPairs`, lines 166-190. -/
def addCollisionPairs (m : GeometryModel) (map : MatrixXb) (upper : Bool) :
    Except Error Unit × GeometryModel :=
  if map.rows ≠ m.ngeoms then (.error .sizeMismatch, m)
  else if map.cols ≠ m.ngeoms then (.error .sizeMismatch, m)
  else
    let m0 := m.removeAllCollisionPairs
    forEach (fun i s =>
        forEach (addCollisionPairsBody map upper i) (loopRange (i + 1) s.ngeoms) s)
      (loopRange 0 m0.ngeoms) m0

/-- Body of the inner loop of `addAllCollisionPairs`, lines 200-202. -/
def addAllCollisionPairsBody (i : Nat) (joint_i : Nat) (j : Nat)
    (m : GeometryModel) : Except Error Unit × GeometryModel :=
  match m.geometryObjects[j]? with
  | none => (.error .outOfRange, m)
  | some gj =>
    let joint_j := gj.parentJoint
    if joint_i ≠ joint_j then m.addCollisionPair ⟨i, j⟩ else (.ok (), m)

/-- `GeometryModel::addAllCollisionPairs`, lines 192-205. -/
def addAllCollisionPairs (m : GeometryModel) : Except Error Unit × GeometryModel :=
  let m0 := m.removeAllCollisionPairs
  forEach (fun i s =>
      match s.geometryObjects[i]? with
      | none => (.error .outOfRange, s)
      | some gi =>
        forEach (addAllCollisionPairsBody i gi.parentJoint) (loopRange (i + 1) s.ngeoms) s)
    (loopRange 0 m0.ngeoms) m0

/-- `GeometryModel::removeCollisionPair`, lines 207-218. -/
def removeCollisionPair (m : GeometryModel) (pair : CollisionPair) :
    Except Error Unit × GeometryModel :=
  if ¬ pair.first < m.ngeoms then (.error .invalidArgument, m)
  else if ¬ pair.second < m.ngeoms then (.error .invalidArgument, m)
  else
    let it := stdFind m.collisionPairs pair
    if it ≠ m.collisionPairs.length then
      (.ok (), { m with collisionPairs := m.collisionPairs.eraseIdx it })
    else (.ok (), m)

end GeometryModel


/-! ## Runtime state -/

/-- Modelled from the spec: a world placement (`SE3`).  Its content is never
read by `geometry.hxx`; it is kept as an uninterpreted payload. -/
structure SE3 where
  payload : Nat
  deriving DecidableEq, Repr

/-- The placement that the vector constructor `oMg(n)` fills in. -/
def SE3.init : SE3 := ⟨0⟩

/-- Modelled from the spec: the per-pair query parameters of the collision
backend (`hpp::fcl::CollisionRequest`): the security margin, the cached-guess
switch and the maximal number of contacts. -/
structure CollisionRequest where
  security_margin : Rat
  enable_cached_gjk_guess : Bool
  num_max_contacts : Nat
  deriving DecidableEq, Repr

/-- Modelled from the spec: `hpp::fcl::CollisionRequest(NO_REQUEST, 1)`. -/
def CollisionRequest.init : CollisionRequest := ⟨0, false, 1⟩

/-- Modelled from the spec: the per-pair parameters of a distance query
(`hpp::fcl::DistanceRequest`). -/
structure DistanceRequest where
  enable_nearest_points : Bool
  enable_cached_gjk_guess : Bool
  deriving DecidableEq, Repr

/-- Modelled from the spec: `hpp::fcl::DistanceRequest(true)`. -/
def DistanceRequest.init : DistanceRequest := ⟨true, false⟩

/-- Modelled from the spec: a result record of the collision backend; this code
only allocates it. -/
structure QueryResult where
  payload : Nat
  deriving DecidableEq, Repr

/-- A result record as the vector constructor fills it in. -/
def QueryResult.init : QueryResult := ⟨0⟩

/-- A `std::map` from joint indices to lists of geometry indices, as the list
of its entries by increasing key. -/
abbrev JointMap := List (Nat × List Nat)

/-- The statement `mp[key].push_back(value)`: the entry of `key` is created
empty when it is missing, then `value` is appended to it. -/
def mapPushBack : JointMap → Nat → Nat → JointMap
  | [], key, value => [(key, [value])]
  | (k, vs) :: rest, key, value =>
    if k = key then (k, vs ++ [value]) :: rest
    else if key < k then (key, [value]) :: (k, vs) :: rest
    else (k, vs) :: mapPushBack rest key value

/-- Lookup of `key` in a joint map (`find`): the list of the entry, if any. -/
def mapFind : JointMap → Nat → Option (List Nat)
  | [], _ => none
  | (k, vs) :: rest, key => if k = key then some vs else mapFind rest key

/-- The runtime state (`GeometryData`), in the build with the collision
backend. -/
structure GeometryData where
  oMg : List SE3
  activeCollisionPairs : List Bool
  distanceRequests : List DistanceRequest
  distanceResults : List QueryResult
  collisionRequests : List CollisionRequest
  collisionResults : List QueryResult
  radius : List Rat
  collisionPairIndex : Nat
  innerObjects : JointMap
  outerObjects : JointMap
  deriving DecidableEq, Repr

/-- `GeometryData::fillInnerOuterObjectMaps`, lines 114-126. -/
def GeometryData.fillInnerOuterObjectMaps (d : GeometryData) (geomModel : GeometryModel) :
    Except Error Unit × GeometryData :=
  let d0 : GeometryData := { d with innerObjects := [], outerObjects := [] }
  match forEach (fun gid s =>
      match geomModel.geometryObjects[gid]? with
      | none => (.error .outOfRange, s)
      | some g =>
        (.ok (), { s with innerObjects := mapPushBack s.innerObjects g.parentJoint gid }))
    (loopRange 0 geomModel.geometryObjects.length) d0 with
  | (.error e, d1) => (.error e, d1)
  | (.ok _, d1) =>
    forEach (fun (pair : CollisionPair) s =>
        match geomModel.geometryObjects[pair.first]? with
        | none => (.error .outOfRange, s)
        | some g =>
          (.ok (), { s with outerObjects := mapPushBack s.outerObjects g.parentJoint pair.second }))
      geomModel.collisionPairs d1

/-- The constructor `GeometryData::GeometryData(geom_model)`, lines 24-51: the
member initialisers, the two loops that switch the cached guess on (the
second one is compiled for backend versions from 1.4.5 on, which is assumed),
then `fillInnerOuterObjectMaps`.  No object exists when the body does not
return normally. -/
def GeometryData.GeometryData (geom_model : GeometryModel) : Except Error GeometryData :=
  let npairs := geom_model.collisionPairs.length
  let d0 : Pinocchio.GeometryData :=
    { oMg := List.replicate geom_model.ngeoms SE3.init
      activeCollisionPairs := List.replicate npairs true
      distanceRequests := List.replicate npairs DistanceRequest.init
      distanceResults := List.replicate npairs QueryResult.init
      collisionRequests := List.replicate npairs CollisionRequest.init
      collisionResults := List.replicate npairs QueryResult.init
      radius := []
      collisionPairIndex := 0
      innerObjects := []
      outerObjects := [] }
  let d1 : Pinocchio.GeometryData :=
    { d0 with collisionRequests :=
        d0.collisionRequests.map (fun creq => { creq with enable_cached_gjk_guess := true }) }
  let d2 : Pinocchio.GeometryData :=
    { d1 with distanceRequests :=
        d1.distanceRequests.map (fun dreq => { dreq with enable_cached_gjk_guess := true }) }
  match d2.fillInnerOuterObjectMaps geom_model with
  | (.ok _, d3) => .ok d3
  | (.error e, _) => .error e

/-- Modelled from the spec: the dense real matrix type `MatrixXs` (Eigen) that
carries the security margins: `rows()`, `cols()` and the coefficients. -/
structure MatrixXs where
  rows : Nat
  cols : Nat
  coeff : Nat → Nat → Rat

/-- Coefficient access `security_margin_map(i,j)`; outside the matrix it is
undefined. -/
def MatrixXs.get (map : MatrixXs) (i j : Nat) : Except Error Rat :=
  if i < map.rows ∧ j < map.cols then .ok (map.coeff i j) else .error .outOfRange

/-- `GeometryData::activateCollisionPair`, lines 238-243. -/
def GeometryData.activateCollisionPair (d : Pinocchio.GeometryData) (pairId : Nat) :
    Except Error Unit × Pinocchio.GeometryData :=
  if ¬ pairId < d.activeCollisionPairs.length then (.error .invalidArgument, d)
  else (.ok (), { d with activeCollisionPairs := d.activeCollisionPairs.set pairId true })

/-- `GeometryData::activateAllCollisionPairs`, lines 245-248 (`std::fill`). -/
def GeometryData.activateAllCollisionPairs (d : Pinocchio.GeometryData) :
    Pinocchio.GeometryData :=
  { d with activeCollisionPairs := List.replicate d.activeCollisionPairs.length true }

/-- Body of the loop of `setActiveCollisionPairs`, lines 261-275, at position
`k`: the pair is read, the cell `(i,j)` is chosen, the flag is written. -/
def GeometryData.setActiveCollisionPairsBody (geom_model : GeometryModel) (map : MatrixXb)
    (upper : Bool) (k : Nat) (d : Pinocchio.GeometryData) :
    Except Error Unit × Pinocchio.GeometryData :=
  match geom_model.collisionPairs[k]? with
  | none => (.error .outOfRange, d)
  | some cp =>
    let i := if upper then min cp.first cp.second else max cp.first cp.second
    let j := if upper then max cp.first cp.second else min cp.first cp.second
    match map.get i j with
    | .error e => (.error e, d)
    | .ok v =>
      if k < d.activeCollisionPairs.length then
        (.ok (), { d with activeCollisionPairs := d.activeCollisionPairs.set k v })
      else (.error .outOfRange, d)

/-- `GeometryData::setActiveCollisionPairs`, lines 250-277. -/
def GeometryData.setActiveCollisionPairs (d : Pinocchio.GeometryData)
    (geom_model : GeometryModel) (map : MatrixXb) (upper : Bool) :
    Except Error Unit × Pinocchio.GeometryData :=
  let ngeoms := geom_model.ngeoms
  if map.rows ≠ ngeoms then (.error .sizeMismatch, d)
  else if map.cols ≠ ngeoms then (.error .sizeMismatch, d)
  else if geom_model.collisionPairs.length ≠ d.activeCollisionPairs.length then
    (.error .sizeMismatch, d)
  else
    forEach (GeometryData.setActiveCollisionPairsBody geom_model map upper)
      (loopRange 0 geom_model.collisionPairs.length) d

/-- Body of the loop of `setSecurityMargins`, lines 290-304, at position `k`. -/
def GeometryData.setSecurityMarginsBody (geom_model : GeometryModel)
    (security_margin_map : MatrixXs) (upper : Bool) (k : Nat) (d : Pinocchio.GeometryData) :
    Except Error Unit × Pinocchio.GeometryData :=
  match geom_model.collisionPairs[k]? with
  | none => (.error .outOfRange, d)
  | some cp =>
    let i := if upper then min cp.first cp.second else max cp.first cp.second
    let j := if upper then max cp.first cp.second else min cp.first cp.second
    match security_margin_map.get i j with
    | .error e => (.error e, d)
    | .ok v =>
      match d.collisionRequests[k]? with
      | none => (.error .outOfRange, d)
      | some creq =>
        (.ok (), { d with collisionRequests :=
                            d.collisionRequests.set k { creq with security_margin := v } })

/-- `GeometryData::setSecurityMargins`, lines 279-306. -/
def GeometryData.setSecurityMargins (d : Pinocchio.GeometryData)
    (geom_model : GeometryModel) (security_margin_map : MatrixXs) (upper : Bool) :
    Except Error Unit × Pinocchio.GeometryData :=
  let ngeoms := geom_model.ngeoms
  if security_margin_map.rows ≠ ngeoms then (.error .sizeMismatch, d)
  else if security_margin_map.cols ≠ ngeoms then (.error .sizeMismatch, d)
  else if geom_model.collisionPairs.length ≠ d.collisionRequests.length then
    (.error .sizeMismatch, d)
  else
    forEach (GeometryData.setSecurityMarginsBody geom_model security_margin_map upper)
      (loopRange 0 geom_model.collisionPairs.length) d

/-- `GeometryData::deactivateCollisionPair`, lines 308-313. -/
def GeometryData.deactivateCollisionPair (d : Pinocchio.GeometryData) (pairId : Nat) :
    Except Error Unit × Pinocchio.GeometryData :=
  if ¬ pairId < d.activeCollisionPairs.length then (.error .invalidArgument, d)
  else (.ok (), { d with activeCollisionPairs := d.activeCollisionPairs.set pairId false })

/-- `GeometryData::deactivateAllCollisionPairs`, lines 315-318 (`std::fill`). -/
def GeometryData.deactivateAllCollisionPairs (d : Pinocchio.GeometryData) :
    Pinocchio.GeometryData :=
  { d with activeCollisionPairs := List.replicate d.activeCollisionPairs.length false }

/-- Runtime states obtained from the construction over the catalog `m`
followed by calls of the activation operations, `setActiveCollisionPairs`
being called with `m` itself.  A call that raises leaves the state it had when
it raised; a call that reads or writes out of range is left out. -/
inductive StateOver (m : GeometryModel) : Pinocchio.GeometryData → Prop
  | construct {d : Pinocchio.GeometryData} :
      GeometryData.GeometryData m = .ok d → StateOver m d
  | activateCollisionPair {d : Pinocchio.GeometryData} (pairId : Nat) :
      StateOver m d → StateOver m (d.activateCollisionPair pairId).2
  | deactivateCollisionPair {d : Pinocchio.GeometryData} (pairId : Nat) :
      StateOver m d → StateOver m (d.deactivateCollisionPair pairId).2
  | activateAllCollisionPairs {d : Pinocchio.GeometryData} :
      StateOver m d → StateOver m d.activateAllCollisionPairs
  | deactivateAllCollisionPairs {d : Pinocchio.GeometryData} :
      StateOver m d → StateOver m d.deactivateAllCollisionPairs
  | setActiveCollisionPairs {d : Pinocchio.GeometryData} (map : MatrixXb) (upper : Bool) :
      StateOver m d → (d.setActiveCollisionPairs m map upper).1 ≠ .error .outOfRange →
      StateOver m (d.setActiveCollisionPairs m map upper).2

/-! ## Catalogs obtained through the member functions -/

/-- Catalogs reachable from the empty catalog by calls of the catalog
operations.  A call that raises leaves the catalog it had when it raised, and
that catalog is reachable too.  Only a call of `addGeometryObject(object, model)`
that reads `model.frames` out of range is left out: its effect is undefined. -/
inductive Reachable : GeometryModel → Prop
  | empty : Reachable GeometryModel.empty
  | addGeometryObject {m : GeometryModel} (object : GeometryObject) :
      Reachable m → Reachable (m.addGeometryObject object).2
  | addGeometryObjectWithModel {m : GeometryModel} (object : GeometryObject) (model : Model) :
      Reachable m → (m.addGeometryObjectWithModel object model).1 ≠ .error .outOfRange →
      Reachable (m.addGeometryObjectWithModel object model).2
  | addCollisionPair {m : GeometryModel} (pair : CollisionPair) :
      Reachable m → Reachable (m.addCollisionPair pair).2
  | addCollisionPairs {m : GeometryModel} (map : MatrixXb) (upper : Bool) :
      Reachable m → Reachable (m.addCollisionPairs map upper).2
  | addAllCollisionPairs {m : GeometryModel} :
      Reachable m → Reachable m.addAllCollisionPairs.2
  | removeCollisionPair {m : GeometryModel} (pair : CollisionPair) :
      Reachable m → Reachable (m.removeCollisionPair pair).2
  | removeAllCollisionPairs {m : GeometryModel} :
      Reachable m → Reachable m.removeAllCollisionPairs

/-- Catalogs built from the empty catalog by `addGeometryObject` calls only
(either overload), with the same reading of raising calls as `Reachable`. -/
inductive BuiltByAdd : GeometryModel → Prop
  | empty : BuiltByAdd GeometryModel.empty
  | addGeometryObject {m : GeometryModel} (object : GeometryObject) :
      BuiltByAdd m → BuiltByAdd (m.addGeometryObject object).2
  | addGeometryObjectWithModel {m : GeometryModel} (object : GeometryObject) (model : Model) :
      BuiltByAdd m → (m.addGeometryObjectWithModel object model).1 ≠ .error .outOfRange →
      BuiltByAdd (m.addGeometryObjectWithModel object model).2

/-- What every reachable catalog satisfies: the count is the length of the
geometry list, the pair list has no repetition and every stored pair has both
indices below the count. -/
def WellFormed (m : GeometryModel) : Prop :=
  m.ngeoms = m.geometryObjects.length ∧ m.collisionPairs.Nodup ∧
    ∀ p ∈ m.collisionPairs, p.first < m.ngeoms ∧ p.second < m.ngeoms

/-- The two runtime states have the same arrays: they differ at most in the
joint maps `innerObjects` and `outerObjects`. -/
def sameArrays (d s : GeometryData) : Prop :=
  s.oMg = d.oMg ∧ s.activeCollisionPairs = d.activeCollisionPairs ∧
  s.distanceRequests = d.distanceRequests ∧ s.distanceResults = d.distanceResults ∧
  s.collisionRequests = d.collisionRequests ∧ s.collisionResults = d.collisionResults ∧
  s.radius = d.radius ∧ s.collisionPairIndex = d.collisionPairIndex

/-- The catalog built from the empty one by adding `A` and `B` on joint 1 and
`C` on joint 2. -/
def builtCatalog : GeometryModel :=
  (((GeometryModel.empty.addGeometryObject ⟨"A", 0, 1⟩).2.addGeometryObject
    ⟨"B", 0, 1⟩).2.addGeometryObject ⟨"C", 0, 2⟩).2

/-- The catalog `builtCatalog` after `addAllCollisionPairs`. -/
def pairedCatalog : GeometryModel := builtCatalog.addAllCollisionPairs.2

/-- A value of the catalog type with no geometry and the pair `(0,1)`; no
sequence of member-function calls produces it. -/
def danglingCatalog : GeometryModel := ⟨0, [], [⟨0, 1⟩]⟩

/-- Lexicographic order on pairs of indices. -/
def lexLt (p q : CollisionPair) : Prop :=
  p.first < q.first ∨ (p.first = q.first ∧ p.second < q.second)

instance lexLt_decidable : DecidableRel lexLt := fun p q =>
  inferInstanceAs (Decidable (p.first < q.first ∨ (p.first = q.first ∧ p.second < q.second)))

/-- The pairs `(i,j)` with `lo ≤ j < hi` selected by `sel`, by increasing `j`. -/
def rowPairs (sel : Nat → Nat → Bool) (i lo hi : Nat) : List CollisionPair :=
  ((loopRange lo hi).filter (fun j => sel i j)).map (fun j => ⟨i, j⟩)

/-- The pairs `(i,j)` with `lo ≤ i`, `i < j < n` selected by `sel`, row after
row: the enumeration in lexicographic order that the design document
describes for the bulk insertions. -/
def selectedPairs (sel : Nat → Nat → Bool) (n lo : Nat) : List CollisionPair :=
  (loopRange lo n).flatMap (fun i => rowPairs sel i (i + 1) n)

/-- Parent joint of the geometry at position `i`, when there is one. -/
def GeometryModel.parentJointAt (m : GeometryModel) (i : Nat) : Option Nat :=
  (m.geometryObjects[i]?).map (fun g => g.parentJoint)

/-- The cell of `map` that decides the pair `(i,j)`, `i < j`: cell `(i,j)` when
`upper` holds and cell `(j,i)` otherwise. -/
def selectedCell (map : MatrixXb) (upper : Bool) (i j : Nat) : Bool :=
  if upper then map.coeff i j else map.coeff j i

/-- Whether the geometries at positions `i` and `j` of `gs` have different
parent joints. -/
def differentJoints (gs : List GeometryObject) (i j : Nat) : Bool :=
  decide ((gs[i]?).map (fun g => g.parentJoint) ≠ (gs[j]?).map (fun g => g.parentJoint))

/-- The catalog of the scenario of the design document: geometries `A` and
`B` on joint 1 and `C` on joint 2, here with a stale pair `(1,0)`. -/
def scenarioCatalog : GeometryModel :=
  ⟨3, [⟨"A", 0, 1⟩, ⟨"B", 0, 1⟩, ⟨"C", 0, 2⟩], [⟨1, 0⟩]⟩

/-- A 3 x 3 adjacency matrix selecting the cells `(0,1)` and `(1,2)` only. -/
def chainMatrix : MatrixXb := ⟨3, 3, fun i j => decide (i + 1 = j)⟩

/-- The flag that `setActiveCollisionPairs` reads for the pair `cp`: the cell
`(min, max)` of its two indices when `upper` holds, the cell `(max, min)`
otherwise. -/
def activationCell (map : MatrixXb) (upper : Bool) (cp : CollisionPair) : Bool :=
  if upper then map.coeff (min cp.first cp.second) (max cp.first cp.second)
  else map.coeff (max cp.first cp.second) (min cp.first cp.second)

/-- The margin that `setSecurityMargins` reads for the pair `cp`, by the same
choice of cell. -/
def marginCell (map : MatrixXs) (upper : Bool) (cp : CollisionPair) : Rat :=
  if upper then map.coeff (min cp.first cp.second) (max cp.first cp.second)
  else map.coeff (max cp.first cp.second) (min cp.first cp.second)

/-- The runtime state that the constructor returns for `pairedCatalog`. -/
def pairedState : GeometryData :=
  { oMg := [SE3.init, SE3.init, SE3.init]
    activeCollisionPairs := [true, true]
    distanceRequests := [⟨true, true⟩, ⟨true, true⟩]
    distanceResults := [QueryResult.init, QueryResult.init]
    collisionRequests := [⟨0, true, 1⟩, ⟨0, true, 1⟩]
    collisionResults := [QueryResult.init, QueryResult.init]
    radius := []
    collisionPairIndex := 0
    innerObjects := [(1, [0, 1]), (2, [2])]
    outerObjects := [(1, [2, 2])] }

/-- The request of the pair `cp` after `setSecurityMargins`: only the margin
is replaced. -/
def withMargin (map : MatrixXs) (upper : Bool) (cp : CollisionPair)
    (creq : CollisionRequest) : CollisionRequest :=
  { creq with security_margin := marginCell map upper cp }

/-- A value of the catalog type with two geometries (count 2) and the pair
`(0,5)`, whose second index is not a geometry; no sequence of
member-function calls produces it. -/
def strayCatalog : GeometryModel := ⟨2, [⟨"A", 0, 1⟩, ⟨"B", 0, 2⟩], [⟨0, 5⟩]⟩

/-- The runtime state that the constructor returns for `strayCatalog`. -/
def strayState : GeometryData :=
  { oMg := [SE3.init, SE3.init]
    activeCollisionPairs := [true]
    distanceRequests := [⟨true, true⟩]
    distanceResults := [QueryResult.init]
    collisionRequests := [⟨0, true, 1⟩]
    collisionResults := [QueryResult.init]
    radius := []
    collisionPairIndex := 0
    innerObjects := [(1, [0]), (2, [1])]
    outerObjects := [(1, [5])] }

/-- A 2 x 2 boolean matrix with every cell true. -/
def fullMatrix : MatrixXb := ⟨2, 2, fun _ _ => true⟩

/-- A 2 x 2 margin matrix with every margin 1. -/
def unitMargins : MatrixXs := ⟨2, 2, fun _ _ => 1⟩

/-- A 3 x 3 boolean matrix whose only true cell is `(0,2)`. -/
def cornerMatrix : MatrixXb := ⟨3, 3, fun i j => decide (i = 0 ∧ j = 2)⟩

/-- A 3 x 3 margin matrix with the margin `i + 10 j` in cell `(i,j)`. -/
def sampleMargins : MatrixXs := ⟨3, 3, fun i j => (i : Rat) + 10 * (j : Rat)⟩

/-- A value of the catalog type with count 1 and no geometry; no sequence of
member-function calls produces it. -/
def miscountedCatalog : GeometryModel := ⟨1, [], []⟩

/-- A value of the catalog type with count 1, no geometry and the pair
`(0,0)`, whose first index is below the count; no sequence of
member-function calls produces it. -/
def emptyListCatalog : GeometryModel := ⟨1, [], [⟨0, 0⟩]⟩

/-- A kinematic model with one frame, attached to joint 0. -/
def oneFrameModel : Model := ⟨1, [⟨0⟩]⟩

/-- The statements `mp[k].push_back(v)` for the entries `(k,v)` of `kvs`, in
order. -/
def pushAll (mp : JointMap) (kvs : List (Nat × Nat)) : JointMap :=
  kvs.foldl (fun acc kv => mapPushBack acc kv.1 kv.2) mp

/-- The keys of the joint map are strictly increasing, as in a `std::map`. -/
def keysSorted (mp : JointMap) : Prop := mp.Pairwise (fun a b => a.1 < b.1)

/-- Sum of the lengths of the lists stored in the joint map. -/
def totalLength (mp : JointMap) : Nat := (mp.map (fun e => e.2.length)).sum

/-- The second geometries of the pairs that are active in the state `d` and
whose first geometry has parent joint `joint`, in pair-list order. -/
def activeOuter (m : GeometryModel) (d : GeometryData) (joint : Nat) : List Nat :=
  ((m.collisionPairs.zip d.activeCollisionPairs).filter
    (fun pa => pa.2 && decide (m.parentJointAt pa.1.first = some joint))).map
    (fun pa => pa.1.second)

/-! ## Loops -/

theorem loopRange_of_le {lo hi : Nat} (h : hi ≤ lo) : loopRange lo hi = [] := by
  simp [loopRange, Nat.sub_eq_zero_of_le h]

theorem loopRange_of_lt {lo hi : Nat} (h : lo < hi) :
    loopRange lo hi = lo :: loopRange (lo + 1) hi := by
  unfold loopRange
  have e : hi - lo = (hi - (lo + 1)) + 1 := by omega
  rw [e, List.range'_succ]

theorem mem_loopRange {lo hi k : Nat} : k ∈ loopRange lo hi ↔ lo ≤ k ∧ k < hi := by
  simp only [loopRange, List.mem_range'_1]
  omega

theorem rowPairs_of_le (sel : Nat → Nat → Bool) (i : Nat) {lo hi : Nat} (h : hi ≤ lo) :
    rowPairs sel i lo hi = [] := by
  simp [rowPairs, loopRange_of_le h]

theorem rowPairs_of_lt (sel : Nat → Nat → Bool) (i : Nat) {lo hi : Nat} (h : lo < hi) :
    rowPairs sel i lo hi =
      (if sel i lo then [(⟨i, lo⟩ : CollisionPair)] else []) ++ rowPairs sel i (lo + 1) hi := by
  simp only [rowPairs, loopRange_of_lt h, List.filter_cons]
  by_cases hs : sel i lo = true <;> simp [hs]

theorem selectedPairs_of_le (sel : Nat → Nat → Bool) {lo n : Nat} (h : n ≤ lo) :
    selectedPairs sel n lo = [] := by
  simp [selectedPairs, loopRange_of_le h]

theorem selectedPairs_of_lt (sel : Nat → Nat → Bool) {lo n : Nat} (h : lo < n) :
    selectedPairs sel n lo = rowPairs sel lo (lo + 1) n ++ selectedPairs sel n (lo + 1) := by
  simp [selectedPairs, loopRange_of_lt h]

theorem mem_rowPairs {sel : Nat → Nat → Bool} {i lo hi : Nat} {p : CollisionPair} :
    p ∈ rowPairs sel i lo hi ↔
      p.first = i ∧ lo ≤ p.second ∧ p.second < hi ∧ sel i p.second = true := by
  obtain ⟨a, b⟩ := p
  simp only [rowPairs, List.mem_map, List.mem_filter, mem_loopRange, CollisionPair.mk.injEq]
  constructor
  · rintro ⟨j, ⟨⟨h1, h2⟩, h3⟩, rfl, rfl⟩
    exact ⟨rfl, h1, h2, h3⟩
  · rintro ⟨rfl, h1, h2, h3⟩
    exact ⟨b, ⟨⟨h1, h2⟩, h3⟩, rfl, rfl⟩

theorem mem_selectedPairs {sel : Nat → Nat → Bool} {n lo : Nat} {p : CollisionPair} :
    p ∈ selectedPairs sel n lo ↔
      lo ≤ p.first ∧ p.first < p.second ∧ p.second < n ∧ sel p.first p.second = true := by
  simp only [selectedPairs, List.mem_flatMap, mem_loopRange, mem_rowPairs]
  constructor
  · rintro ⟨i, ⟨h1, _⟩, rfl, h3, h4, h5⟩
    exact ⟨h1, by omega, h4, h5⟩
  · rintro ⟨h1, h2, h3, h4⟩
    exact ⟨p.first, ⟨h1, by omega⟩, rfl, by omega, h3, h4⟩

theorem rowPairs_pairwise (sel : Nat → Nat → Bool) (i lo hi : Nat) :
    (rowPairs sel i lo hi).Pairwise lexLt := by
  unfold rowPairs
  rw [List.pairwise_map]
  have h : (loopRange lo hi).Pairwise (fun a b => a < b) := by
    unfold loopRange
    exact List.pairwise_lt_range' lo (hi - lo)
  exact (h.filter _).imp (fun hab => Or.inr ⟨rfl, hab⟩)

theorem selectedPairs_pairwise (sel : Nat → Nat → Bool) (n : Nat) :
    ∀ d lo, n - lo = d → (selectedPairs sel n lo).Pairwise lexLt := by
  intro d
  induction d with
  | zero =>
    intro lo h
    rw [selectedPairs_of_le sel (by omega)]
    exact List.Pairwise.nil
  | succ d ih =>
    intro lo h
    rw [selectedPairs_of_lt sel (by omega), List.pairwise_append]
    refine ⟨rowPairs_pairwise sel lo (lo + 1) n, ih (lo + 1) (by omega), ?_⟩
    intro p hp q hq
    rw [mem_rowPairs] at hp
    rw [mem_selectedPairs] at hq
    exact Or.inl (by omega)

theorem lexLt_irrefl (p : CollisionPair) : ¬ lexLt p p := by
  unfold lexLt
  omega

theorem nodup_of_pairwise_lexLt {l : List CollisionPair} (h : l.Pairwise lexLt) :
    l.Nodup := by
  unfold List.Nodup
  refine h.imp ?_
  intro a b hab e
  subst e
  exact lexLt_irrefl a hab

/-! ## Searching the pair list -/

theorem stdFind_eq_length {α : Type} [DecidableEq α] {v : List α} {x : α} :
    stdFind v x = v.length ↔ x ∉ v := by
  unfold stdFind
  rw [List.findIdx_eq_length]
  constructor
  · intro h hx
    simpa using h x hx
  · intro h y hy
    simp only [decide_eq_false_iff_not]
    rintro rfl
    exact h hy

theorem stdFind_le_length {α : Type} [DecidableEq α] (v : List α) (x : α) :
    stdFind v x ≤ v.length :=
  List.findIdx_le_length _

theorem stdFind_lt_length {α : Type} [DecidableEq α] {v : List α} {x : α} :
    stdFind v x < v.length ↔ x ∈ v := by
  have h1 := stdFind_le_length v x
  have h2 := @stdFind_eq_length α _ v x
  constructor
  · intro h
    by_contra hx
    have := h2.mpr hx
    omega
  · intro hx
    have : stdFind v x ≠ v.length := fun e => (h2.mp e) hx
    omega

theorem eraseIdx_stdFind {α : Type} [DecidableEq α] (v : List α) (x : α) :
    v.eraseIdx (stdFind v x) = v.erase x := by
  induction v with
  | nil => rfl
  | cons y ys ih =>
    unfold stdFind at ih ⊢
    by_cases h : y = x
    · subst h
      simp [List.findIdx_cons]
    · have h2 : (y == x) = false := by simpa using h
      simp [List.findIdx_cons, h, List.erase_cons, h2, ih]

theorem existCollisionPair_iff (m : GeometryModel) (p : CollisionPair) :
    m.existCollisionPair p = true ↔ p ∈ m.collisionPairs := by
  unfold GeometryModel.existCollisionPair
  rw [decide_eq_true_iff, Ne, stdFind_eq_length, not_not]

theorem existCollisionPair_eq_false (m : GeometryModel) (p : CollisionPair) :
    m.existCollisionPair p = false ↔ p ∉ m.collisionPairs := by
  rw [← existCollisionPair_iff, Bool.not_eq_true]

/-! ## The two bulk insertions -/

theorem addCollisionPairs_row (map : MatrixXb) (upper : Bool) (n : Nat)
    (gs : List GeometryObject) (i : Nat) (hr : map.rows = n) (hc : map.cols = n) :
    ∀ d lo ps, n - lo = d → i < lo →
      forEach (GeometryModel.addCollisionPairsBody map upper i) (loopRange lo n) ⟨n, gs, ps⟩
        = (.ok (), ⟨n, gs, ps ++ rowPairs (selectedCell map upper) i lo n⟩) := by
  intro d
  induction d with
  | zero =>
    intro lo ps h _
    rw [loopRange_of_le (by omega), rowPairs_of_le _ _ (by omega)]
    simp [forEach]
  | succ d ih =>
    intro lo ps h hi
    have hlo : lo < n := by omega
    have hin : i < n := by omega
    have hb : GeometryModel.addCollisionPairsBody map upper i lo ⟨n, gs, ps⟩ =
        (.ok (), ⟨n, gs,
          ps ++ (if selectedCell map upper i lo then [(⟨i, lo⟩ : CollisionPair)] else [])⟩) := by
      cases upper <;>
        simp only [GeometryModel.addCollisionPairsBody, MatrixXb.get, selectedCell, hr, hc,
          hlo, hin, and_self, if_true, if_false, Bool.false_eq_true] <;>
        cases map.coeff _ _ <;> simp
    rw [loopRange_of_lt hlo, rowPairs_of_lt _ _ hlo, forEach, hb]
    simp only []
    rw [ih (lo + 1) _ (by omega) (by omega), List.append_assoc]

theorem addCollisionPairs_rows (map : MatrixXb) (upper : Bool) (n : Nat)
    (gs : List GeometryObject) (hr : map.rows = n) (hc : map.cols = n) :
    ∀ d lo ps, n - lo = d →
      forEach (fun i s => forEach (GeometryModel.addCollisionPairsBody map upper i)
          (loopRange (i + 1) s.ngeoms) s) (loopRange lo n) ⟨n, gs, ps⟩
        = (.ok (), ⟨n, gs, ps ++ selectedPairs (selectedCell map upper) n lo⟩) := by
  intro d
  induction d with
  | zero =>
    intro lo ps h
    rw [loopRange_of_le (by omega), selectedPairs_of_le _ (by omega)]
    simp [forEach]
  | succ d ih =>
    intro lo ps h
    have hlo : lo < n := by omega
    rw [loopRange_of_lt hlo, selectedPairs_of_lt _ hlo, forEach]
    simp only []
    rw [addCollisionPairs_row map upper n gs lo hr hc _ (lo + 1) ps rfl (by omega)]
    simp only []
    rw [ih (lo + 1) _ (by omega), List.append_assoc]

theorem addCollisionPairs_eq (m : GeometryModel) (map : MatrixXb) (upper : Bool)
    (hr : map.rows = m.ngeoms) (hc : map.cols = m.ngeoms) :
    m.addCollisionPairs map upper =
      (.ok (), { m with collisionPairs := selectedPairs (selectedCell map upper) m.ngeoms 0 }) := by
  unfold GeometryModel.addCollisionPairs
  simp only [hr, hc, ne_eq, not_true_eq_false, if_false, GeometryModel.removeAllCollisionPairs]
  rw [addCollisionPairs_rows map upper m.ngeoms m.geometryObjects hr hc _ 0 [] rfl]
  simp

theorem lexLt_succ {p : CollisionPair} {i lo : Nat} (h : lexLt p ⟨i, lo⟩) :
    lexLt p ⟨i, lo + 1⟩ := by
  unfold lexLt at h ⊢
  simp only at h ⊢
  omega

theorem addAllCollisionPairs_row (gs : List GeometryObject) (i : Nat) (gi : GeometryObject)
    (hgi : gs[i]? = some gi) :
    ∀ d lo ps, gs.length - lo = d → i < lo → (∀ p ∈ ps, lexLt p ⟨i, lo⟩) →
      forEach (GeometryModel.addAllCollisionPairsBody i gi.parentJoint)
          (loopRange lo gs.length) ⟨gs.length, gs, ps⟩
        = (.ok (), ⟨gs.length, gs, ps ++ rowPairs (differentJoints gs) i lo gs.length⟩) := by
  intro d
  induction d with
  | zero =>
    intro lo ps h _ _
    rw [loopRange_of_le (by omega), rowPairs_of_le _ _ (by omega)]
    simp [forEach]
  | succ d ih =>
    intro lo ps h hi hps
    have hlo : lo < gs.length := by omega
    have hin : i < gs.length := by omega
    have hnew : (⟨i, lo⟩ : CollisionPair) ∉ ps := fun hmem => lexLt_irrefl _ (hps _ hmem)
    have hex : GeometryModel.existCollisionPair ⟨gs.length, gs, ps⟩ ⟨i, lo⟩ = false :=
      (existCollisionPair_eq_false _ _).mpr hnew
    have hb : GeometryModel.addAllCollisionPairsBody i gi.parentJoint lo ⟨gs.length, gs, ps⟩ =
        (.ok (), ⟨gs.length, gs,
          ps ++ (if differentJoints gs i lo then [(⟨i, lo⟩ : CollisionPair)] else [])⟩) := by
      simp only [GeometryModel.addAllCollisionPairsBody, differentJoints, hgi,
        List.getElem?_eq_getElem hlo, Option.map_some', ne_eq, Option.some.injEq]
      by_cases hj : gi.parentJoint = gs[lo].parentJoint
      · simp [hj]
      · simp [hj, GeometryModel.addCollisionPair, hlo, hin, hex]
    rw [loopRange_of_lt hlo, rowPairs_of_lt _ _ hlo, forEach, hb]
    simp only []
    rw [ih (lo + 1) _ (by omega) (by omega), List.append_assoc]
    intro p hp
    rw [List.mem_append] at hp
    rcases hp with hp | hp
    · exact lexLt_succ (hps p hp)
    · split at hp
      · rw [List.mem_singleton] at hp
        subst hp
        exact Or.inr ⟨rfl, Nat.lt_succ_self lo⟩
      · simp at hp

theorem addAllCollisionPairs_rows (gs : List GeometryObject) :
    ∀ d lo ps, gs.length - lo = d → (∀ p ∈ ps, p.first < lo) →
      forEach (fun i s =>
          match s.geometryObjects[i]? with
          | none => (.error .outOfRange, s)
          | some gi =>
            forEach (GeometryModel.addAllCollisionPairsBody i gi.parentJoint)
              (loopRange (i + 1) s.ngeoms) s)
          (loopRange lo gs.length) ⟨gs.length, gs, ps⟩
        = (.ok (), ⟨gs.length, gs, ps ++ selectedPairs (differentJoints gs) gs.length lo⟩) := by
  intro d
  induction d with
  | zero =>
    intro lo ps h _
    rw [loopRange_of_le (by omega), selectedPairs_of_le _ (by omega)]
    simp [forEach]
  | succ d ih =>
    intro lo ps h hps
    have hlo : lo < gs.length := by omega
    rw [loopRange_of_lt hlo, selectedPairs_of_lt _ hlo, forEach]
    simp only [List.getElem?_eq_getElem hlo]
    rw [addAllCollisionPairs_row gs lo (gs[lo]) (List.getElem?_eq_getElem hlo) _ (lo + 1) ps rfl
      (by omega) (fun p hp => Or.inl (hps p hp))]
    simp only []
    rw [ih (lo + 1) _ (by omega), List.append_assoc]
    intro p hp
    rw [List.mem_append] at hp
    rcases hp with hp | hp
    · exact Nat.lt_succ_of_lt (hps p hp)
    · rw [mem_rowPairs] at hp
      omega

theorem addAllCollisionPairs_eq (m : GeometryModel) (h : m.ngeoms = m.geometryObjects.length) :
    m.addAllCollisionPairs =
      (.ok (),
        { m with collisionPairs := selectedPairs (differentJoints m.geometryObjects) m.ngeoms 0 }) := by
  obtain ⟨n, gs, ps⟩ := m
  simp only at h
  subst h
  unfold GeometryModel.addAllCollisionPairs
  simp only [GeometryModel.removeAllCollisionPairs]
  rw [addAllCollisionPairs_rows gs _ 0 [] rfl (by simp)]
  simp

/-! ## Single insertions and removals -/

theorem addCollisionPair_of_valid (m : GeometryModel) (p : CollisionPair)
    (h1 : p.first < m.ngeoms) (h2 : p.second < m.ngeoms) :
    m.addCollisionPair p =
      (.ok (), if p ∈ m.collisionPairs then m
        else { m with collisionPairs := m.collisionPairs ++ [p] }) := by
  unfold GeometryModel.addCollisionPair
  by_cases hp : p ∈ m.collisionPairs
  · simp [h1, h2, hp, (existCollisionPair_iff m p).mpr hp]
  · simp [h1, h2, hp, (existCollisionPair_eq_false m p).mpr hp]

theorem addCollisionPair_of_invalid (m : GeometryModel) (p : CollisionPair)
    (h : ¬ (p.first < m.ngeoms ∧ p.second < m.ngeoms)) :
    m.addCollisionPair p = (.error .invalidArgument, m) := by
  unfold GeometryModel.addCollisionPair
  by_cases h1 : p.first < m.ngeoms
  · have h2 : ¬ p.second < m.ngeoms := fun h2 => h ⟨h1, h2⟩
    simp [h1, h2]
  · simp [h1]

theorem removeCollisionPair_of_valid (m : GeometryModel) (p : CollisionPair)
    (h1 : p.first < m.ngeoms) (h2 : p.second < m.ngeoms) :
    m.removeCollisionPair p =
      (.ok (), { m with collisionPairs := m.collisionPairs.erase p }) := by
  unfold GeometryModel.removeCollisionPair
  simp only [h1, h2, not_true_eq_false, if_false]
  by_cases hp : p ∈ m.collisionPairs
  · have : stdFind m.collisionPairs p ≠ m.collisionPairs.length :=
      fun e => (stdFind_eq_length.mp e) hp
    simp only [this, ne_eq, not_false_eq_true, if_true, eraseIdx_stdFind]
  · have : stdFind m.collisionPairs p = m.collisionPairs.length := stdFind_eq_length.mpr hp
    simp only [this, ne_eq, not_true_eq_false, if_false, List.erase_of_not_mem hp]

theorem removeCollisionPair_of_invalid (m : GeometryModel) (p : CollisionPair)
    (h : ¬ (p.first < m.ngeoms ∧ p.second < m.ngeoms)) :
    m.removeCollisionPair p = (.error .invalidArgument, m) := by
  unfold GeometryModel.removeCollisionPair
  by_cases h1 : p.first < m.ngeoms
  · have h2 : ¬ p.second < m.ngeoms := fun h2 => h ⟨h1, h2⟩
    simp [h1, h2]
  · simp [h1]

theorem addCollisionPairs_of_mismatch (m : GeometryModel) (map : MatrixXb) (upper : Bool)
    (h : ¬ (map.rows = m.ngeoms ∧ map.cols = m.ngeoms)) :
    m.addCollisionPairs map upper = (.error .sizeMismatch, m) := by
  unfold GeometryModel.addCollisionPairs
  by_cases h1 : map.rows = m.ngeoms
  · have h2 : ¬ map.cols = m.ngeoms := fun h2 => h ⟨h1, h2⟩
    simp [h1, h2]
  · simp [h1]

/-! ## Invariants of reachable catalogs -/

theorem wellFormed_selectedPairs (m : GeometryModel) (sel : Nat → Nat → Bool)
    (h : m.ngeoms = m.geometryObjects.length) :
    WellFormed { m with collisionPairs := selectedPairs sel m.ngeoms 0 } := by
  refine ⟨h, nodup_of_pairwise_lexLt (selectedPairs_pairwise sel m.ngeoms _ 0 rfl), ?_⟩
  intro p hp
  have := mem_selectedPairs.mp hp
  simp only
  omega

theorem wellFormed_addGeometryObject (m : GeometryModel) (object : GeometryObject)
    (h : WellFormed m) :
    WellFormed { m with ngeoms := m.ngeoms + 1,
                        geometryObjects := m.geometryObjects ++ [object] } := by
  obtain ⟨h1, h2, h3⟩ := h
  refine ⟨by simp [h1], h2, ?_⟩
  intro p hp
  have := h3 p hp
  simp only
  omega

theorem Reachable.wellFormed {m : GeometryModel} (hm : Reachable m) : WellFormed m := by
  induction hm with
  | empty => exact ⟨rfl, List.nodup_nil, by simp [GeometryModel.empty]⟩
  | addGeometryObject object _ ih => exact wellFormed_addGeometryObject _ object ih
  | @addGeometryObjectWithModel m object model _ hne ih =>
    revert hne
    unfold GeometryModel.addGeometryObjectWithModel
    cases hfr : model.frames[object.parentFrame]? with
    | none =>
      by_cases hlt : object.parentFrame < model.nframes <;> simp [hlt]
    | some fr =>
      by_cases hlt : object.parentFrame < model.nframes
      · by_cases hpar : fr.parent = object.parentJoint
        · intro _
          simp only [hlt, hpar, if_true]
          exact wellFormed_addGeometryObject m _ ih
        · intro _
          simp only [hlt, hpar, if_true, if_false]
          exact ih
      · intro _
        simp only [hlt, if_false]
        exact wellFormed_addGeometryObject m _ ih
  | @addCollisionPair m pair _ ih =>
    by_cases hv : pair.first < m.ngeoms ∧ pair.second < m.ngeoms
    · rw [addCollisionPair_of_valid m pair hv.1 hv.2]
      by_cases hp : pair ∈ m.collisionPairs
      · simpa [hp] using ih
      · obtain ⟨h1, h2, h3⟩ := ih
        simp only [hp, if_false]
        refine ⟨h1, ?_, ?_⟩
        · exact List.Nodup.append h2 (List.nodup_singleton pair) (by simpa using hp)
        · intro q hq
          rcases List.mem_append.mp hq with hq | hq
          · exact h3 q hq
          · rw [List.mem_singleton.mp hq]
            exact hv
    · rw [addCollisionPair_of_invalid m pair hv]
      exact ih
  | @addCollisionPairs m map upper _ ih =>
    by_cases hv : map.rows = m.ngeoms ∧ map.cols = m.ngeoms
    · rw [addCollisionPairs_eq m map upper hv.1 hv.2]
      exact wellFormed_selectedPairs m _ ih.1
    · rw [addCollisionPairs_of_mismatch m map upper hv]
      exact ih
  | @addAllCollisionPairs m _ ih =>
    rw [addAllCollisionPairs_eq m ih.1]
    exact wellFormed_selectedPairs m _ ih.1
  | @removeCollisionPair m pair _ ih =>
    by_cases hv : pair.first < m.ngeoms ∧ pair.second < m.ngeoms
    · rw [removeCollisionPair_of_valid m pair hv.1 hv.2]
      obtain ⟨h1, h2, h3⟩ := ih
      exact ⟨h1, h2.erase pair, fun q hq => h3 q (List.mem_of_mem_erase hq)⟩
    · rw [removeCollisionPair_of_invalid m pair hv]
      exact ih
  | removeAllCollisionPairs _ ih =>
    exact ⟨ih.1, List.nodup_nil, by simp [GeometryModel.removeAllCollisionPairs]⟩

theorem BuiltByAdd.reachable {m : GeometryModel} (hm : BuiltByAdd m) : Reachable m := by
  induction hm with
  | empty => exact Reachable.empty
  | addGeometryObject object _ ih => exact Reachable.addGeometryObject object ih
  | addGeometryObjectWithModel object model _ hne ih =>
    exact Reachable.addGeometryObjectWithModel object model ih hne

/-! ## Properties of the catalog operations -/

/-- C1: on a catalog whose count is the length of its geometry list, whatever
pairs it held, `addAllCollisionPairs` returns normally, changes nothing but the
pair list, and the new pair list holds exactly the pairs `(i,j)`, `i < j < count`,
whose geometries have different parent joints, strictly increasing in the
lexicographic order (hence without repetition).  It is empty when all
geometries share one joint, and it is `[(0,2),(1,2)]` for three geometries of
which the first two share a joint that the third does not have. -/
theorem addAllCollisionPairs_spec (m : GeometryModel)
    (h : m.ngeoms = m.geometryObjects.length) :
    ∃ l : List CollisionPair,
      m.addAllCollisionPairs = (.ok (), { m with collisionPairs := l }) ∧
      (∀ p : CollisionPair, p ∈ l ↔
        p.first < p.second ∧ p.second < m.ngeoms ∧
          m.parentJointAt p.first ≠ m.parentJointAt p.second) ∧
      l.Pairwise lexLt ∧ l.Nodup ∧
      ((∀ g ∈ m.geometryObjects, ∀ g2 ∈ m.geometryObjects,
          g.parentJoint = g2.parentJoint) → l = []) ∧
      (∀ a b c : GeometryObject, m.geometryObjects = [a, b, c] →
          a.parentJoint = b.parentJoint → b.parentJoint ≠ c.parentJoint →
          l = [⟨0, 2⟩, ⟨1, 2⟩]) := by
  have hmem : ∀ p : CollisionPair,
      p ∈ selectedPairs (differentJoints m.geometryObjects) m.ngeoms 0 ↔
        p.first < p.second ∧ p.second < m.ngeoms ∧
          m.parentJointAt p.first ≠ m.parentJointAt p.second := by
    intro p
    rw [mem_selectedPairs]
    simp [differentJoints, GeometryModel.parentJointAt]
  have hpw := selectedPairs_pairwise (differentJoints m.geometryObjects) m.ngeoms _ 0 rfl
  refine ⟨_, addAllCollisionPairs_eq m h, hmem, hpw, nodup_of_pairwise_lexLt hpw, ?_, ?_⟩
  · intro hall
    rw [List.eq_nil_iff_forall_not_mem]
    intro p hp
    obtain ⟨h1, h2, h3⟩ := (hmem p).mp hp
    have hb : p.second < m.geometryObjects.length := by omega
    have ha : p.first < m.geometryObjects.length := by omega
    apply h3
    simp only [GeometryModel.parentJointAt, List.getElem?_eq_getElem ha,
      List.getElem?_eq_getElem hb, Option.map_some']
    rw [hall _ (List.getElem_mem ha) _ (List.getElem_mem hb)]
  · intro a b c hgs hab hbc
    have hn : m.ngeoms = 3 := by rw [h, hgs]; rfl
    have hac : a.parentJoint ≠ c.parentJoint := by rw [hab]; exact hbc
    rw [hn, hgs]
    simp [selectedPairs, rowPairs, loopRange, differentJoints, List.range', List.filter, hab,
      hbc, hac]

/-- Witness of C1 on the scenario catalog `{A->1, B->1, C->2}` holding the stale
pair `(1,0)`: the call returns normally with the pair list `[(0,2),(1,2)]`. -/
theorem addAllCollisionPairs_spec_witness :
    scenarioCatalog.ngeoms = scenarioCatalog.geometryObjects.length ∧
    scenarioCatalog.addAllCollisionPairs =
      (.ok (), { scenarioCatalog with collisionPairs := [⟨0, 2⟩, ⟨1, 2⟩] }) := by
  refine ⟨rfl, ?_⟩
  obtain ⟨l, h1, _, _, _, _, h6⟩ := addAllCollisionPairs_spec scenarioCatalog rfl
  rw [h1, h6 ⟨"A", 0, 1⟩ ⟨"B", 0, 1⟩ ⟨"C", 0, 2⟩ rfl rfl (by decide)]

/-- C2: for a `count x count` boolean matrix, `addCollisionPairs` returns
normally, changes nothing but the pair list, and the new pair list holds
exactly the pairs `(i,j)`, `i < j < count`, whose deciding cell is true (cell
`(i,j)` when `upper`, cell `(j,i)` otherwise), strictly increasing in the
lexicographic order; a pair held before the call is kept only if the matrix
selects it. -/
theorem addCollisionPairs_spec (m : GeometryModel) (map : MatrixXb) (upper : Bool)
    (hr : map.rows = m.ngeoms) (hc : map.cols = m.ngeoms) :
    ∃ l : List CollisionPair,
      m.addCollisionPairs map upper = (.ok (), { m with collisionPairs := l }) ∧
      (∀ p : CollisionPair, p ∈ l ↔
        p.first < p.second ∧ p.second < m.ngeoms ∧
          (if upper then map.coeff p.first p.second else map.coeff p.second p.first) = true) ∧
      l.Pairwise lexLt ∧ l.Nodup ∧
      (∀ p ∈ m.collisionPairs,
        (if upper then map.coeff p.first p.second else map.coeff p.second p.first) = false →
          p ∉ l) := by
  have hmem : ∀ p : CollisionPair,
      p ∈ selectedPairs (selectedCell map upper) m.ngeoms 0 ↔
        p.first < p.second ∧ p.second < m.ngeoms ∧
          (if upper then map.coeff p.first p.second else map.coeff p.second p.first) = true := by
    intro p
    rw [mem_selectedPairs]
    simp [selectedCell]
  have hpw := selectedPairs_pairwise (selectedCell map upper) m.ngeoms _ 0 rfl
  refine ⟨_, addCollisionPairs_eq m map upper hr hc, hmem, hpw, nodup_of_pairwise_lexLt hpw, ?_⟩
  intro p _ hsel hp
  have := ((hmem p).mp hp).2.2
  rw [hsel] at this
  exact Bool.false_ne_true this

/-- Witness of C2: on the scenario catalog (stale pair `(1,0)`) with the matrix
that selects the cells `(0,1)` and `(1,2)`, the call returns normally, the pair
`(0,1)` is in the new pair list and the stale pair `(1,0)` is not. -/
theorem addCollisionPairs_spec_witness :
    chainMatrix.rows = scenarioCatalog.ngeoms ∧ chainMatrix.cols = scenarioCatalog.ngeoms ∧
    (scenarioCatalog.addCollisionPairs chainMatrix true).1 = .ok () ∧
    (⟨0, 1⟩ : CollisionPair) ∈ (scenarioCatalog.addCollisionPairs chainMatrix true).2.collisionPairs ∧
    (⟨1, 0⟩ : CollisionPair) ∉ (scenarioCatalog.addCollisionPairs chainMatrix true).2.collisionPairs := by
  obtain ⟨l, h1, h2, _, _, h5⟩ :=
    addCollisionPairs_spec scenarioCatalog chainMatrix true rfl rfl
  rw [h1]
  exact ⟨rfl, rfl, rfl, (h2 ⟨0, 1⟩).mpr (by decide), h5 ⟨1, 0⟩ (by decide) (by decide)⟩

/-- C3: for a `count x count` boolean matrix, `addCollisionPairs` with the
matrix and `upper = true`, and with the transposed matrix and `upper = false`,
both return normally and leave the same catalog: same pairs in the same order. -/
theorem addCollisionPairs_transpose (m : GeometryModel) (map : MatrixXb)
    (hr : map.rows = m.ngeoms) (hc : map.cols = m.ngeoms) :
    (m.addCollisionPairs map true).1 = .ok () ∧
    m.addCollisionPairs map true = m.addCollisionPairs map.transpose false := by
  have h1 := addCollisionPairs_eq m map true hr hc
  have h2 := addCollisionPairs_eq m map.transpose false hc hr
  have hsel : selectedCell map.transpose false = selectedCell map true := by
    funext i j
    simp [selectedCell, MatrixXb.transpose]
  rw [h1, h2, hsel]
  exact ⟨rfl, rfl⟩

/-- Witness of C3 on the scenario catalog and the matrix selecting the cells
`(0,1)` and `(1,2)`. -/
theorem addCollisionPairs_transpose_witness :
    chainMatrix.rows = scenarioCatalog.ngeoms ∧ chainMatrix.cols = scenarioCatalog.ngeoms ∧
    (scenarioCatalog.addCollisionPairs chainMatrix true).1 = .ok () ∧
    scenarioCatalog.addCollisionPairs chainMatrix true =
      scenarioCatalog.addCollisionPairs chainMatrix.transpose false :=
  ⟨rfl, rfl, addCollisionPairs_transpose scenarioCatalog chainMatrix rfl rfl⟩

/-- C4: for indices `a`, `b` below the count, `addCollisionPair (a,b)` returns
normally and `existCollisionPair (a,b)` is true afterwards; and when `a ≠ b`
and `(b,a)` was not in the catalog before, `existCollisionPair (b,a)` is false
afterwards: the reversed pair is a different pair. -/
theorem addCollisionPair_exist (m : GeometryModel) (a b : Nat)
    (ha : a < m.ngeoms) (hb : b < m.ngeoms) :
    (m.addCollisionPair ⟨a, b⟩).1 = .ok () ∧
    (m.addCollisionPair ⟨a, b⟩).2.existCollisionPair ⟨a, b⟩ = true ∧
    (a ≠ b → m.existCollisionPair ⟨b, a⟩ = false →
      (m.addCollisionPair ⟨a, b⟩).2.existCollisionPair ⟨b, a⟩ = false) := by
  rw [addCollisionPair_of_valid m ⟨a, b⟩ ha hb]
  refine ⟨rfl, ?_, ?_⟩
  · rw [existCollisionPair_iff]
    by_cases hp : (⟨a, b⟩ : CollisionPair) ∈ m.collisionPairs <;> simp [hp]
  · intro hab hrev
    rw [existCollisionPair_eq_false] at hrev ⊢
    by_cases hp : (⟨a, b⟩ : CollisionPair) ∈ m.collisionPairs
    · simpa [hp] using hrev
    · simp only [hp, if_false, List.mem_append, List.mem_singleton, CollisionPair.mk.injEq]
      rintro (h | ⟨h, _⟩)
      · exact hrev h
      · exact hab h.symm

/-- Witness of C4 on the scenario catalog, which holds `(1,0)` only: after
inserting `(0,2)` the pair `(0,2)` exists and the pair `(2,0)` does not. -/
theorem addCollisionPair_exist_witness :
    (scenarioCatalog.addCollisionPair ⟨0, 2⟩).1 = .ok () ∧
    (scenarioCatalog.addCollisionPair ⟨0, 2⟩).2.existCollisionPair ⟨0, 2⟩ = true ∧
    (scenarioCatalog.addCollisionPair ⟨0, 2⟩).2.existCollisionPair ⟨2, 0⟩ = false :=
  have h := addCollisionPair_exist scenarioCatalog 0 2 (by decide) (by decide)
  ⟨h.1, h.2.1, h.2.2 (by decide) (by decide)⟩

/-- C5: `addCollisionPair` is idempotent: for a pair with both indices below the
count, the first call returns normally and a second call with the same pair
returns normally and leaves the catalog of the first call unchanged (same
pair list, same length). -/
theorem addCollisionPair_idempotent (m : GeometryModel) (p : CollisionPair)
    (h1 : p.first < m.ngeoms) (h2 : p.second < m.ngeoms) :
    (m.addCollisionPair p).1 = .ok () ∧
    (m.addCollisionPair p).2.addCollisionPair p = (.ok (), (m.addCollisionPair p).2) ∧
    ((m.addCollisionPair p).2.addCollisionPair p).2.collisionPairs.length =
      (m.addCollisionPair p).2.collisionPairs.length := by
  have hstep : (m.addCollisionPair p).2.addCollisionPair p = (.ok (), (m.addCollisionPair p).2) := by
    rw [addCollisionPair_of_valid m p h1 h2]
    by_cases hp : p ∈ m.collisionPairs
    · simp only [hp, if_true]
      rw [addCollisionPair_of_valid m p h1 h2]
      simp [hp]
    · simp only [hp, if_false]
      rw [addCollisionPair_of_valid { m with collisionPairs := m.collisionPairs ++ [p] } p h1 h2]
      simp
  refine ⟨?_, hstep, ?_⟩
  · rw [addCollisionPair_of_valid m p h1 h2]
  · rw [hstep]

/-- Witness of C5 on the scenario catalog with the new pair `(0,2)`. -/
theorem addCollisionPair_idempotent_witness :
    (scenarioCatalog.addCollisionPair ⟨0, 2⟩).1 = .ok () ∧
    (scenarioCatalog.addCollisionPair ⟨0, 2⟩).2.addCollisionPair ⟨0, 2⟩ =
      (.ok (), (scenarioCatalog.addCollisionPair ⟨0, 2⟩).2) ∧
    ((scenarioCatalog.addCollisionPair ⟨0, 2⟩).2.addCollisionPair ⟨0, 2⟩).2.collisionPairs.length =
      (scenarioCatalog.addCollisionPair ⟨0, 2⟩).2.collisionPairs.length :=
  addCollisionPair_idempotent scenarioCatalog ⟨0, 2⟩ (by decide) (by decide)

/-- C7: `addCollisionPair` and `removeCollisionPair` raise the argument error
exactly when the first index or the second index is not below the count; they
raise no other error, and whenever they raise the catalog is the one before
the call. -/
theorem collisionPair_argument_error (m : GeometryModel) (p : CollisionPair) :
    ((m.addCollisionPair p).1 = .error .invalidArgument ↔
      (m.ngeoms ≤ p.first ∨ m.ngeoms ≤ p.second)) ∧
    ((m.removeCollisionPair p).1 = .error .invalidArgument ↔
      (m.ngeoms ≤ p.first ∨ m.ngeoms ≤ p.second)) ∧
    (∀ e, (m.addCollisionPair p).1 = .error e →
      e = .invalidArgument ∧ (m.addCollisionPair p).2 = m) ∧
    (∀ e, (m.removeCollisionPair p).1 = .error e →
      e = .invalidArgument ∧ (m.removeCollisionPair p).2 = m) := by
  unfold GeometryModel.addCollisionPair GeometryModel.removeCollisionPair
  by_cases h1 : p.first < m.ngeoms
  · by_cases h2 : p.second < m.ngeoms
    · have hn : ¬ (m.ngeoms ≤ p.first ∨ m.ngeoms ≤ p.second) := by omega
      simp only [h1, h2, hn, not_true_eq_false, if_false, iff_false]
      refine ⟨?_, ?_, ?_, ?_⟩
      · split <;> simp
      · split <;> simp
      · intro e; split <;> simp
      · intro e; split <;> simp
    · have hn : m.ngeoms ≤ p.first ∨ m.ngeoms ≤ p.second := by omega
      simp [h1, h2, hn]
  · have hn : m.ngeoms ≤ p.first ∨ m.ngeoms ≤ p.second := by omega
    simp [h1, hn]

/-- C9: `findCollisionPair` is a total function of the catalog and the pair
(valid indices or not).  If the pair is in the pair list it returns the
position of its first occurrence; otherwise it returns the length of the pair
list; and `existCollisionPair` is true exactly when the returned position is
below that length. -/
theorem findCollisionPair_spec (m : GeometryModel) (p : CollisionPair) :
    (p ∈ m.collisionPairs →
      m.findCollisionPair p < m.collisionPairs.length ∧
      m.collisionPairs[m.findCollisionPair p]? = some p ∧
      ∀ k, k < m.findCollisionPair p → m.collisionPairs[k]? ≠ some p) ∧
    (p ∉ m.collisionPairs → m.findCollisionPair p = m.collisionPairs.length) ∧
    (m.existCollisionPair p = true ↔ m.findCollisionPair p < m.collisionPairs.length) := by
  refine ⟨?_, ?_, ?_⟩
  · intro hp
    have hlt : m.findCollisionPair p < m.collisionPairs.length := stdFind_lt_length.mpr hp
    refine ⟨hlt, ?_, ?_⟩
    · have := @List.findIdx_getElem _ (fun y => decide (y = p)) m.collisionPairs hlt
      rw [List.getElem?_eq_getElem hlt]
      simpa using this
    · intro k hk
      have hk2 : k < m.collisionPairs.length := Nat.lt_trans hk hlt
      have := @List.not_of_lt_findIdx _ (fun y => decide (y = p)) m.collisionPairs k hk
      rw [List.getElem?_eq_getElem hk2]
      simpa using this
  · intro hp
    exact stdFind_eq_length.mpr hp
  · rw [existCollisionPair_iff]
    exact stdFind_lt_length.symm

/-- C6: on a reachable catalog and for a pair with both indices below the
count, `removeCollisionPair` returns normally and changes nothing but the pair
list; afterwards `existCollisionPair` is false for that pair, the pair list is
one shorter if the pair was present and has the same length if it was absent,
and the new pair list is the old one without that pair, the other pairs
keeping their relative order. -/
theorem removeCollisionPair_spec (m : GeometryModel) (hm : Reachable m) (p : CollisionPair)
    (h1 : p.first < m.ngeoms) (h2 : p.second < m.ngeoms) :
    (m.removeCollisionPair p).1 = .ok () ∧
    (m.removeCollisionPair p).2.ngeoms = m.ngeoms ∧
    (m.removeCollisionPair p).2.geometryObjects = m.geometryObjects ∧
    (m.removeCollisionPair p).2.existCollisionPair p = false ∧
    (p ∈ m.collisionPairs →
      (m.removeCollisionPair p).2.collisionPairs.length + 1 = m.collisionPairs.length) ∧
    (p ∉ m.collisionPairs →
      (m.removeCollisionPair p).2.collisionPairs.length = m.collisionPairs.length) ∧
    (m.removeCollisionPair p).2.collisionPairs =
      m.collisionPairs.filter (fun q => decide (q ≠ p)) := by
  have hnd : m.collisionPairs.Nodup := hm.wellFormed.2.1
  rw [removeCollisionPair_of_valid m p h1 h2]
  refine ⟨rfl, rfl, rfl, ?_, ?_, ?_, ?_⟩
  · rw [existCollisionPair_eq_false]
    intro hmem
    exact ((hnd.mem_erase_iff).mp hmem).1 rfl
  · intro hp
    simp only [List.length_erase_of_mem hp]
    have : 0 < m.collisionPairs.length := List.length_pos_of_mem hp
    omega
  · intro hp
    simp only [List.erase_of_not_mem hp]
  · simp only [hnd.erase_eq_filter p]
    congr 1
    funext q
    by_cases hq : q = p <;> simp [hq]

theorem pairedCatalog_reachable : Reachable pairedCatalog :=
  Reachable.addAllCollisionPairs
    (Reachable.addGeometryObject _
      (Reachable.addGeometryObject _ (Reachable.addGeometryObject _ Reachable.empty)))

/-- Witness of C6 on the catalog `{A->1, B->1, C->2}` after
`addAllCollisionPairs`, whose pair list is `[(0,2),(1,2)]`: removing `(0,2)`
leaves `[(1,2)]`. -/
theorem removeCollisionPair_spec_witness :
    Reachable pairedCatalog ∧
    (pairedCatalog.removeCollisionPair ⟨0, 2⟩).1 = .ok () ∧
    (pairedCatalog.removeCollisionPair ⟨0, 2⟩).2.existCollisionPair ⟨0, 2⟩ = false ∧
    (pairedCatalog.removeCollisionPair ⟨0, 2⟩).2.collisionPairs.length + 1 =
      pairedCatalog.collisionPairs.length ∧
    (pairedCatalog.removeCollisionPair ⟨0, 2⟩).2.collisionPairs = [⟨1, 2⟩] :=
  have h := removeCollisionPair_spec pairedCatalog pairedCatalog_reachable ⟨0, 2⟩
    (by decide) (by decide)
  ⟨pairedCatalog_reachable, h.1, h.2.2.2.1, h.2.2.2.2.1 (by decide),
    h.2.2.2.2.2.2.trans (by decide)⟩

/-- C8: on a catalog built by `addGeometryObject` calls, `getGeometryId` is a
total function of the catalog and the name.  If some geometry has the name,
the result is below the count, the geometry at the result has the name and no
geometry at a smaller position has it; if no geometry has the name, the result
is the count; and `existGeometryName` is true exactly when the result is below
the count. -/
theorem getGeometryId_spec (m : GeometryModel) (hm : BuiltByAdd m) (name : String) :
    ((∃ g ∈ m.geometryObjects, g.name = name) →
      m.getGeometryId name < m.ngeoms ∧
      (m.geometryObjects[m.getGeometryId name]?).map (fun g => g.name) = some name ∧
      ∀ k, k < m.getGeometryId name →
        (m.geometryObjects[k]?).map (fun g => g.name) ≠ some name) ∧
    ((∀ g ∈ m.geometryObjects, g.name ≠ name) → m.getGeometryId name = m.ngeoms) ∧
    (m.existGeometryName name = true ↔ m.getGeometryId name < m.ngeoms) := by
  have hn : m.ngeoms = m.geometryObjects.length := hm.reachable.wellFormed.1
  have hle : m.getGeometryId name ≤ m.geometryObjects.length := List.findIdx_le_length _
  refine ⟨?_, ?_, ?_⟩
  · rintro ⟨g, hg, hgn⟩
    have hlt : m.getGeometryId name < m.geometryObjects.length :=
      List.findIdx_lt_length.mpr ⟨g, hg, by simpa using hgn⟩
    refine ⟨by omega, ?_, ?_⟩
    · have := @List.findIdx_getElem GeometryObject (fun g => decide (g.name = name)) m.geometryObjects hlt
      rw [List.getElem?_eq_getElem hlt]
      simpa using this
    · intro k hk
      have hk2 : k < m.geometryObjects.length := Nat.lt_trans hk hlt
      have := @List.not_of_lt_findIdx GeometryObject (fun g => decide (g.name = name)) m.geometryObjects k hk
      rw [List.getElem?_eq_getElem hk2]
      simpa using this
  · intro hall
    rw [hn]
    exact List.findIdx_eq_length.mpr (fun g hg => by simpa using hall g hg)
  · unfold GeometryModel.existGeometryName
    rw [decide_eq_true_iff, hn]
    unfold GeometryModel.getGeometryId at hle ⊢
    omega

theorem builtCatalog_built : BuiltByAdd builtCatalog :=
  BuiltByAdd.addGeometryObject _
    (BuiltByAdd.addGeometryObject _ (BuiltByAdd.addGeometryObject _ BuiltByAdd.empty))

/-- Witness of C8 on the catalog `{A, B, C}`: the name `missing` is looked up
without error and gives the count, 3, and `existGeometryName` is false. -/
theorem getGeometryId_spec_witness :
    BuiltByAdd builtCatalog ∧ builtCatalog.getGeometryId "missing" = 3 ∧
    builtCatalog.existGeometryName "missing" = false := by
  have h := getGeometryId_spec builtCatalog builtCatalog_built "missing"
  have h3 : builtCatalog.getGeometryId "missing" = 3 := h.2.1 (by decide)
  refine ⟨builtCatalog_built, h3, ?_⟩
  rw [← Bool.not_eq_true, h.2.2, h3]
  decide

/-! ## Construction of the runtime state -/

theorem forEach_ok {α σ : Type} (body : α → σ → Except Error Unit × σ) (Q : α → Prop)
    (P : σ → Prop)
    (hbody : ∀ x s, Q x → P s → ∃ s1, body x s = (.ok (), s1) ∧ P s1) :
    ∀ (xs : List α) (s : σ), (∀ x ∈ xs, Q x) → P s →
      ∃ s1, forEach body xs s = (.ok (), s1) ∧ P s1 := by
  intro xs
  induction xs with
  | nil =>
    intro s _ hs
    exact ⟨s, rfl, hs⟩
  | cons x xs ih =>
    intro s hxs hs
    obtain ⟨s1, h1, hs1⟩ := hbody x s (hxs x (List.mem_cons_self x xs)) hs
    obtain ⟨s2, h2, hs2⟩ := ih s1 (fun y hy => hxs y (List.mem_cons_of_mem x hy)) hs1
    refine ⟨s2, ?_, hs2⟩
    rw [forEach, h1]
    exact h2

theorem fillInnerOuterObjectMaps_ok (d : GeometryData) (geomModel : GeometryModel)
    (hp : ∀ p ∈ geomModel.collisionPairs, p.first < geomModel.geometryObjects.length) :
    ∃ d1, d.fillInnerOuterObjectMaps geomModel = (.ok (), d1) ∧ sameArrays d d1 := by
  unfold GeometryData.fillInnerOuterObjectMaps
  obtain ⟨s1, h1, hs1⟩ := forEach_ok
    (fun gid s =>
      match geomModel.geometryObjects[gid]? with
      | none => (.error .outOfRange, s)
      | some g =>
        (.ok (), { s with innerObjects := mapPushBack s.innerObjects g.parentJoint gid }))
    (fun gid => gid < geomModel.geometryObjects.length) (sameArrays d)
    (by
      intro gid s hgid hs
      simp only [List.getElem?_eq_getElem hgid]
      exact ⟨_, rfl, hs⟩)
    (loopRange 0 geomModel.geometryObjects.length)
    { d with innerObjects := [], outerObjects := [] }
    (fun gid hgid => (mem_loopRange.mp hgid).2)
    ⟨rfl, rfl, rfl, rfl, rfl, rfl, rfl, rfl⟩
  obtain ⟨s2, h2, hs2⟩ := forEach_ok
    (fun (pair : CollisionPair) s =>
      match geomModel.geometryObjects[pair.first]? with
      | none => (.error .outOfRange, s)
      | some g =>
        (.ok (), { s with outerObjects := mapPushBack s.outerObjects g.parentJoint pair.second }))
    (fun pair => pair.first < geomModel.geometryObjects.length) (sameArrays d)
    (by
      intro pair s hpair hs
      simp only [List.getElem?_eq_getElem hpair]
      exact ⟨_, rfl, hs⟩)
    geomModel.collisionPairs s1 hp hs1
  refine ⟨s2, ?_, hs2⟩
  simp only [h1]
  exact h2

/-- C10, as amended: for a catalog with `G` geometries (count `G`) and `P`
pairs whose first indices are all below `G`, the constructor of the runtime
state returns a state whose placement array has length `G`, whose activation
array has length `P` with every flag true, and whose per-pair request and
result arrays all have length `P`. -/
theorem GeometryData_construct (m : GeometryModel)
    (hG : m.ngeoms = m.geometryObjects.length)
    (hp : ∀ p ∈ m.collisionPairs, p.first < m.ngeoms) :
    ∃ d : GeometryData, GeometryData.GeometryData m = .ok d ∧
      d.oMg.length = m.ngeoms ∧
      d.activeCollisionPairs = List.replicate m.collisionPairs.length true ∧
      d.activeCollisionPairs.length = m.collisionPairs.length ∧
      (∀ b ∈ d.activeCollisionPairs, b = true) ∧
      d.collisionRequests.length = m.collisionPairs.length ∧
      d.collisionResults.length = m.collisionPairs.length ∧
      d.distanceRequests.length = m.collisionPairs.length ∧
      d.distanceResults.length = m.collisionPairs.length := by
  unfold GeometryData.GeometryData
  simp only []
  obtain ⟨d1, h1, e1, e2, e3, e4, e5, e6, _, _⟩ := fillInnerOuterObjectMaps_ok
    { oMg := List.replicate m.ngeoms SE3.init
      activeCollisionPairs := List.replicate m.collisionPairs.length true
      distanceRequests := (List.replicate m.collisionPairs.length DistanceRequest.init).map
        (fun dreq => { dreq with enable_cached_gjk_guess := true })
      distanceResults := List.replicate m.collisionPairs.length QueryResult.init
      collisionRequests := (List.replicate m.collisionPairs.length CollisionRequest.init).map
        (fun creq => { creq with enable_cached_gjk_guess := true })
      collisionResults := List.replicate m.collisionPairs.length QueryResult.init
      radius := []
      collisionPairIndex := 0
      innerObjects := []
      outerObjects := [] } m (fun p hp2 => hG ▸ hp p hp2)
  refine ⟨d1, ?_, ?_, e2, ?_, ?_, ?_, ?_, ?_, ?_⟩
  · rw [h1]
  · rw [e1, List.length_replicate]
  · rw [e2, List.length_replicate]
  · intro b hb
    rw [e2] at hb
    exact List.eq_of_mem_replicate hb
  · rw [e5, List.length_map, List.length_replicate]
  · rw [e6, List.length_replicate]
  · rw [e3, List.length_map, List.length_replicate]
  · rw [e4, List.length_replicate]

/-- Witness of C10 (amended) on the catalog `{A->1, B->1, C->2}` with the pair
list `[(0,2),(1,2)]`: three placements, activation `[true, true]`. -/
theorem GeometryData_construct_witness :
    pairedCatalog.ngeoms = pairedCatalog.geometryObjects.length ∧
    (∀ p ∈ pairedCatalog.collisionPairs, p.first < pairedCatalog.ngeoms) ∧
    ∃ d : GeometryData, GeometryData.GeometryData pairedCatalog = .ok d ∧
      d.oMg.length = 3 ∧ d.activeCollisionPairs = [true, true] ∧
      d.collisionRequests.length = 2 := by
  have hG : pairedCatalog.ngeoms = pairedCatalog.geometryObjects.length := by decide
  have hp : ∀ p ∈ pairedCatalog.collisionPairs, p.first < pairedCatalog.ngeoms := by decide
  obtain ⟨d, h1, h2, h3, _, _, h6, _⟩ := GeometryData_construct pairedCatalog hG hp
  exact ⟨hG, hp, d, h1, h2, h3, h6⟩

/-- C10, as stated, fails: the catalog value with no geometry (count 0) and
the single pair `(0,1)` makes the constructor read `geometryObjects[0]` outside
the empty geometry list, so no runtime state is returned. -/
theorem GeometryData_construct_counterexample :
    danglingCatalog.ngeoms = danglingCatalog.geometryObjects.length ∧
    danglingCatalog.collisionPairs.length = 1 ∧
    GeometryData.GeometryData danglingCatalog = .error .outOfRange ∧
    ¬ ∃ d : GeometryData, GeometryData.GeometryData danglingCatalog = .ok d ∧
      d.oMg.length = danglingCatalog.ngeoms ∧
      d.activeCollisionPairs.length = danglingCatalog.collisionPairs.length ∧
      (∀ b ∈ d.activeCollisionPairs, b = true) ∧
      d.collisionRequests.length = danglingCatalog.collisionPairs.length := by
  have h : GeometryData.GeometryData danglingCatalog = .error .outOfRange := by decide
  refine ⟨rfl, rfl, h, ?_⟩
  rintro ⟨d, hd, _⟩
  rw [h] at hd
  exact Except.noConfusion hd

/-! ## Activation flags and security margins -/

theorem pairedCatalog_eq :
    pairedCatalog = ⟨3, [⟨"A", 0, 1⟩, ⟨"B", 0, 1⟩, ⟨"C", 0, 2⟩], [⟨0, 2⟩, ⟨1, 2⟩]⟩ := by
  decide

theorem pairedState_eq : GeometryData.GeometryData pairedCatalog = .ok pairedState := by
  decide

theorem forEach_error {α σ : Type} (body : α → σ → Except Error Unit × σ) :
    ∀ (xs : List α) (s : σ) (e : Error) (s1 : σ), forEach body xs s = (.error e, s1) →
      ∃ x s0, x ∈ xs ∧ body x s0 = (.error e, s1) := by
  intro xs
  induction xs with
  | nil =>
    intro s e s1 h
    simp [forEach] at h
  | cons x xs ih =>
    intro s e s1 h
    rw [forEach] at h
    cases hb : body x s with
    | mk r s2 =>
      rw [hb] at h
      cases r with
      | error e2 =>
        simp only [Prod.mk.injEq, Except.error.injEq] at h
        exact ⟨x, s, List.mem_cons_self x xs, by rw [hb, h.1, h.2]⟩
      | ok u =>
        simp only at h
        obtain ⟨y, s0, hy, hys⟩ := ih s2 e s1 h
        exact ⟨y, s0, List.mem_cons_of_mem x hy, hys⟩

theorem setActiveCollisionPairsBody_error (m : GeometryModel) (map : MatrixXb) (upper : Bool)
    (k : Nat) (d d1 : GeometryData) (e : Error)
    (h : GeometryData.setActiveCollisionPairsBody m map upper k d = (.error e, d1)) :
    e = .outOfRange := by
  unfold GeometryData.setActiveCollisionPairsBody MatrixXb.get at h
  cases hp : m.collisionPairs[k]? with
  | none =>
    rw [hp] at h
    simp only [Prod.mk.injEq, Except.error.injEq] at h
    exact h.1.symm
  | some cp =>
    rw [hp] at h
    cases upper <;> simp only [if_true, if_false, Bool.false_eq_true] at h <;>
      split_ifs at h <;> simp only [Prod.mk.injEq, Except.error.injEq] at h <;>
      first
        | exact h.1.symm
        | exact absurd h.1 (by simp)

theorem setSecurityMarginsBody_error (m : GeometryModel) (map : MatrixXs) (upper : Bool)
    (k : Nat) (d d1 : GeometryData) (e : Error)
    (h : GeometryData.setSecurityMarginsBody m map upper k d = (.error e, d1)) :
    e = .outOfRange := by
  unfold GeometryData.setSecurityMarginsBody MatrixXs.get at h
  cases hp : m.collisionPairs[k]? with
  | none =>
    rw [hp] at h
    simp only [Prod.mk.injEq, Except.error.injEq] at h
    exact h.1.symm
  | some cp =>
    rw [hp] at h
    cases hq : d.collisionRequests[k]? <;> rw [hq] at h <;>
      cases upper <;> simp only [if_true, if_false, Bool.false_eq_true] at h <;>
      split_ifs at h <;> simp only [Prod.mk.injEq, Except.error.injEq] at h <;>
      first
        | exact h.1.symm
        | exact absurd h.1 (by simp)

/-- C13: `setActiveCollisionPairs` and `setSecurityMargins` raise the size
error whenever the matrix has a row count or a column count other than the
geometry count of the catalog, or the pair count of the catalog differs from
the length of the per-pair array of the state (the activation array for the
first, the request array for the second); and whenever either raises the size
error, the runtime state is the one before the call. -/
theorem setters_size_error (d : GeometryData) (m : GeometryModel) (map : MatrixXb)
    (margins : MatrixXs) (upper : Bool) :
    ((map.rows ≠ m.ngeoms ∨ map.cols ≠ m.ngeoms ∨
        m.collisionPairs.length ≠ d.activeCollisionPairs.length) →
      d.setActiveCollisionPairs m map upper = (.error .sizeMismatch, d)) ∧
    ((margins.rows ≠ m.ngeoms ∨ margins.cols ≠ m.ngeoms ∨
        m.collisionPairs.length ≠ d.collisionRequests.length) →
      d.setSecurityMargins m margins upper = (.error .sizeMismatch, d)) ∧
    ((d.setActiveCollisionPairs m map upper).1 = .error .sizeMismatch →
      (d.setActiveCollisionPairs m map upper).2 = d) ∧
    ((d.setSecurityMargins m margins upper).1 = .error .sizeMismatch →
      (d.setSecurityMargins m margins upper).2 = d) := by
  refine ⟨?_, ?_, ?_, ?_⟩
  · intro h
    unfold GeometryData.setActiveCollisionPairs
    by_cases h1 : map.rows = m.ngeoms
    · by_cases h2 : map.cols = m.ngeoms
      · have h3 : m.collisionPairs.length ≠ d.activeCollisionPairs.length := by
          rcases h with h | h | h
          · exact absurd h1 h
          · exact absurd h2 h
          · exact h
        simp [h1, h2, h3]
      · simp [h1, h2]
    · simp [h1]
  · intro h
    unfold GeometryData.setSecurityMargins
    by_cases h1 : margins.rows = m.ngeoms
    · by_cases h2 : margins.cols = m.ngeoms
      · have h3 : m.collisionPairs.length ≠ d.collisionRequests.length := by
          rcases h with h | h | h
          · exact absurd h1 h
          · exact absurd h2 h
          · exact h
        simp [h1, h2, h3]
      · simp [h1, h2]
    · simp [h1]
  · unfold GeometryData.setActiveCollisionPairs
    simp only []
    split
    · intro _; rfl
    · split
      · intro _; rfl
      · split
        · intro _; rfl
        · intro h
          exfalso
          cases hf : forEach (GeometryData.setActiveCollisionPairsBody m map upper)
              (loopRange 0 m.collisionPairs.length) d with
          | mk r d1 =>
            rw [hf] at h
            simp only at h
            subst h
            obtain ⟨x, s0, _, hx⟩ := forEach_error _ _ _ _ _ hf
            exact Error.noConfusion (setActiveCollisionPairsBody_error _ _ _ _ _ _ _ hx)
  · unfold GeometryData.setSecurityMargins
    simp only []
    split
    · intro _; rfl
    · split
      · intro _; rfl
      · split
        · intro _; rfl
        · intro h
          exfalso
          cases hf : forEach (GeometryData.setSecurityMarginsBody m margins upper)
              (loopRange 0 m.collisionPairs.length) d with
          | mk r d1 =>
            rw [hf] at h
            simp only at h
            subst h
            obtain ⟨x, s0, _, hx⟩ := forEach_error _ _ _ _ _ hf
            exact Error.noConfusion (setSecurityMarginsBody_error _ _ _ _ _ _ _ hx)

/-- C14: `activateCollisionPair` and `deactivateCollisionPair` raise the
argument error exactly when the pair id is not below the length of the
activation array, and then the state is unchanged; otherwise they return
normally, the flag at the pair id is true (respectively false), every other
flag and the length of the array are as before, and nothing else in the state
changes.  On the state constructed for the catalog `{A->1, B->1, C->2}` after
`addAllCollisionPairs`, `deactivateCollisionPair(0)` leaves the activation
array `[false, true]`. -/
theorem activation_toggle (d : GeometryData) (pairId : Nat) :
    ((d.activateCollisionPair pairId).1 = .error .invalidArgument ↔
      d.activeCollisionPairs.length ≤ pairId) ∧
    ((d.deactivateCollisionPair pairId).1 = .error .invalidArgument ↔
      d.activeCollisionPairs.length ≤ pairId) ∧
    (d.activeCollisionPairs.length ≤ pairId →
      d.activateCollisionPair pairId = (.error .invalidArgument, d) ∧
      d.deactivateCollisionPair pairId = (.error .invalidArgument, d)) ∧
    (pairId < d.activeCollisionPairs.length →
      d.activateCollisionPair pairId =
        (.ok (), { d with activeCollisionPairs := d.activeCollisionPairs.set pairId true }) ∧
      d.deactivateCollisionPair pairId =
        (.ok (), { d with activeCollisionPairs := d.activeCollisionPairs.set pairId false }) ∧
      (d.activateCollisionPair pairId).2.activeCollisionPairs[pairId]? = some true ∧
      (d.deactivateCollisionPair pairId).2.activeCollisionPairs[pairId]? = some false ∧
      (∀ k, k ≠ pairId →
        (d.activateCollisionPair pairId).2.activeCollisionPairs[k]? = d.activeCollisionPairs[k]? ∧
        (d.deactivateCollisionPair pairId).2.activeCollisionPairs[k]? =
          d.activeCollisionPairs[k]?) ∧
      (d.activateCollisionPair pairId).2.activeCollisionPairs.length =
        d.activeCollisionPairs.length ∧
      (d.deactivateCollisionPair pairId).2.activeCollisionPairs.length =
        d.activeCollisionPairs.length) ∧
    (GeometryData.GeometryData pairedCatalog = .ok pairedState ∧
      pairedState.deactivateCollisionPair 0 =
        (.ok (), { pairedState with activeCollisionPairs := [false, true] })) := by
  unfold GeometryData.activateCollisionPair GeometryData.deactivateCollisionPair
  refine ⟨?_, ?_, ?_, ?_, pairedState_eq, by decide⟩
  · by_cases h : pairId < d.activeCollisionPairs.length
    · simp only [h, not_true_eq_false, if_false]
      constructor
      · intro h2
        exact absurd h2 (by simp)
      · intro h2
        omega
    · simp only [h, not_false_eq_true, if_true, true_iff]
      omega
  · by_cases h : pairId < d.activeCollisionPairs.length
    · simp only [h, not_true_eq_false, if_false]
      constructor
      · intro h2
        exact absurd h2 (by simp)
      · intro h2
        omega
    · simp only [h, not_false_eq_true, if_true, true_iff]
      omega
  · intro h
    have hn : ¬ pairId < d.activeCollisionPairs.length := by omega
    simp only [hn, not_false_eq_true, if_true, and_self]
  · intro h
    simp only [h, not_true_eq_false, if_false, List.length_set, and_self, and_true, true_and]
    refine ⟨List.getElem?_set_self h, List.getElem?_set_self h, ?_⟩
    intro k hk
    exact ⟨List.getElem?_set_ne (Ne.symm hk), List.getElem?_set_ne (Ne.symm hk)⟩

theorem take_set_succ {α : Type} (v : α) :
    ∀ (a : List α) (k : Nat), k < a.length → (a.set k v).take (k + 1) = a.take k ++ [v] := by
  intro a
  induction a with
  | nil =>
    intro k hk
    simp at hk
  | cons x xs ih =>
    intro k hk
    cases k with
    | zero => simp
    | succ k =>
      simp only [List.length_cons, Nat.add_lt_add_iff_right] at hk
      simp [ih k hk]

theorem setActiveCollisionPairsBody_ok (m : GeometryModel) (map : MatrixXb) (upper : Bool)
    (k : Nat) (d : GeometryData) (cp : CollisionPair)
    (hr : map.rows = m.ngeoms) (hc : map.cols = m.ngeoms)
    (hcp : m.collisionPairs[k]? = some cp)
    (h1 : cp.first < m.ngeoms) (h2 : cp.second < m.ngeoms)
    (hk : k < d.activeCollisionPairs.length) :
    GeometryData.setActiveCollisionPairsBody m map upper k d =
      (.ok (), { d with activeCollisionPairs :=
                          d.activeCollisionPairs.set k (activationCell map upper cp) }) := by
  have hmin : min cp.first cp.second < m.ngeoms := by omega
  have hmax : max cp.first cp.second < m.ngeoms := by omega
  unfold GeometryData.setActiveCollisionPairsBody MatrixXb.get activationCell
  rw [hcp]
  cases upper <;> simp [hr, hc, hmin, hmax, hk]

theorem setActiveCollisionPairs_loop (m : GeometryModel) (map : MatrixXb) (upper : Bool)
    (hr : map.rows = m.ngeoms) (hc : map.cols = m.ngeoms)
    (hp : ∀ p ∈ m.collisionPairs, p.first < m.ngeoms ∧ p.second < m.ngeoms) :
    ∀ n lo (d : GeometryData), m.collisionPairs.length - lo = n →
      lo ≤ m.collisionPairs.length →
      d.activeCollisionPairs.length = m.collisionPairs.length →
      forEach (GeometryData.setActiveCollisionPairsBody m map upper)
          (loopRange lo m.collisionPairs.length) d =
        (.ok (), { d with activeCollisionPairs :=
          d.activeCollisionPairs.take lo ++
            (m.collisionPairs.drop lo).map (activationCell map upper) }) := by
  intro n
  induction n with
  | zero =>
    intro lo d h hlo hlen
    rw [loopRange_of_le (by omega), List.drop_of_length_le (by omega),
      List.take_of_length_le (by omega)]
    simp [forEach]
  | succ n ih =>
    intro lo d h hlo hlen
    have hlt : lo < m.collisionPairs.length := by omega
    have hcp : m.collisionPairs[lo]? = some (m.collisionPairs[lo]) :=
      List.getElem?_eq_getElem hlt
    have hin := hp _ (List.getElem_mem hlt)
    rw [loopRange_of_lt hlt, forEach,
      setActiveCollisionPairsBody_ok m map upper lo d _ hr hc hcp hin.1 hin.2 (by omega)]
    simp only []
    rw [ih (lo + 1) _ (by omega) (by omega) (by simp [hlen])]
    simp only [take_set_succ _ _ _ (by omega : lo < d.activeCollisionPairs.length)]
    rw [List.drop_eq_getElem_cons hlt]
    simp only [List.map_cons, List.append_assoc, List.singleton_append]

theorem setActiveCollisionPairs_eq (d : GeometryData) (m : GeometryModel) (map : MatrixXb)
    (upper : Bool) (hr : map.rows = m.ngeoms) (hc : map.cols = m.ngeoms)
    (hlen : m.collisionPairs.length = d.activeCollisionPairs.length)
    (hp : ∀ p ∈ m.collisionPairs, p.first < m.ngeoms ∧ p.second < m.ngeoms) :
    d.setActiveCollisionPairs m map upper =
      (.ok (), { d with activeCollisionPairs :=
                          m.collisionPairs.map (activationCell map upper) }) := by
  unfold GeometryData.setActiveCollisionPairs
  simp only [hr, hc, hlen, ne_eq, not_true_eq_false, if_false]
  rw [← hlen, setActiveCollisionPairs_loop m map upper hr hc hp _ 0 d rfl (by omega) hlen.symm]
  simp

theorem strayState_eq : GeometryData.GeometryData strayCatalog = .ok strayState := by
  decide

/-- C11, as amended: for a catalog whose pairs all have both indices below the
count, a runtime state whose activation array has the pair count of the
catalog as length, and a `count x count` boolean matrix, the call
`setActiveCollisionPairs` returns normally, changes nothing but the activation
array, keeps its length, and sets the flag at every position `k`, whose pair is
`(first, second)`, to the cell `(min, max)` of the matrix when `upper` holds
and to the cell `(max, min)` otherwise, whatever the flags were. -/
theorem setActiveCollisionPairs_spec (d : GeometryData) (m : GeometryModel) (map : MatrixXb)
    (upper : Bool) (hlen : d.activeCollisionPairs.length = m.collisionPairs.length)
    (hr : map.rows = m.ngeoms) (hc : map.cols = m.ngeoms)
    (hp : ∀ p ∈ m.collisionPairs, p.first < m.ngeoms ∧ p.second < m.ngeoms) :
    ∃ flags : List Bool,
      d.setActiveCollisionPairs m map upper =
        (.ok (), { d with activeCollisionPairs := flags }) ∧
      flags.length = d.activeCollisionPairs.length ∧
      ∀ (k : Nat) (p : CollisionPair), m.collisionPairs[k]? = some p →
        flags[k]? = some (if upper then map.coeff (min p.first p.second) (max p.first p.second)
          else map.coeff (max p.first p.second) (min p.first p.second)) := by
  refine ⟨_, setActiveCollisionPairs_eq d m map upper hr hc hlen.symm hp, ?_, ?_⟩
  · rw [List.length_map, hlen]
  · intro k p hk
    rw [List.getElem?_map, hk]
    rfl

/-- Witness of C11 (amended): on the state constructed for the catalog
`{A->1, B->1, C->2}` with pairs `[(0,2),(1,2)]` and the matrix whose only true
cell is `(0,2)`, the activation array becomes `[true, false]`. -/
theorem setActiveCollisionPairs_spec_witness :
    pairedState.setActiveCollisionPairs pairedCatalog cornerMatrix true =
      (.ok (), { pairedState with activeCollisionPairs := [true, false] }) := by
  obtain ⟨flags, h1, h2, h3⟩ := setActiveCollisionPairs_spec pairedState pairedCatalog
    cornerMatrix true (by decide) (by decide) (by decide) (by decide)
  have e0 : flags[0]? = some true := by
    rw [h3 0 ⟨0, 2⟩ (by decide)]
    decide
  have e1 : flags[1]? = some false := by
    rw [h3 1 ⟨1, 2⟩ (by decide)]
    decide
  have hl : flags.length = 2 := h2
  have hf : flags = [true, false] := by
    match flags, hl, e0, e1 with
    | [a, b], _, e0, e1 =>
      simp only [List.getElem?_cons_zero, List.getElem?_cons_succ, Option.some.injEq] at e0 e1
      rw [e0, e1]
  rw [h1, hf]

/-- C11, as stated, fails: the catalog value with two geometries (count 2) and
the pair `(0,5)`, the state constructed for it and the 2 x 2 matrix pass the
three checks, and the loop then reads the cell `(0,5)` outside the matrix: the
call does not return normally and sets no flag from the matrix. -/
theorem setActiveCollisionPairs_counterexample :
    GeometryData.GeometryData strayCatalog = .ok strayState ∧
    strayState.activeCollisionPairs.length = strayCatalog.collisionPairs.length ∧
    fullMatrix.rows = strayCatalog.ngeoms ∧ fullMatrix.cols = strayCatalog.ngeoms ∧
    strayState.setActiveCollisionPairs strayCatalog fullMatrix true =
      (.error .outOfRange, strayState) ∧
    ¬ ∃ flags : List Bool,
      strayState.setActiveCollisionPairs strayCatalog fullMatrix true =
        (.ok (), { strayState with activeCollisionPairs := flags }) := by
  have h : strayState.setActiveCollisionPairs strayCatalog fullMatrix true =
      (.error .outOfRange, strayState) := by decide
  refine ⟨strayState_eq, rfl, rfl, rfl, h, ?_⟩
  rintro ⟨flags, hf⟩
  rw [h] at hf
  exact Except.noConfusion (congrArg Prod.fst hf)

theorem setSecurityMarginsBody_ok (m : GeometryModel) (map : MatrixXs) (upper : Bool)
    (k : Nat) (d : GeometryData) (cp : CollisionPair) (creq : CollisionRequest)
    (hr : map.rows = m.ngeoms) (hc : map.cols = m.ngeoms)
    (hcp : m.collisionPairs[k]? = some cp)
    (h1 : cp.first < m.ngeoms) (h2 : cp.second < m.ngeoms)
    (hq : d.collisionRequests[k]? = some creq) :
    GeometryData.setSecurityMarginsBody m map upper k d =
      (.ok (), { d with collisionRequests :=
                          d.collisionRequests.set k (withMargin map upper cp creq) }) := by
  have hmin : min cp.first cp.second < m.ngeoms := by omega
  have hmax : max cp.first cp.second < m.ngeoms := by omega
  unfold GeometryData.setSecurityMarginsBody MatrixXs.get withMargin marginCell
  rw [hcp, hq]
  cases upper <;> simp [hr, hc, hmin, hmax]

theorem setSecurityMargins_loop (m : GeometryModel) (map : MatrixXs) (upper : Bool)
    (hr : map.rows = m.ngeoms) (hc : map.cols = m.ngeoms)
    (hp : ∀ p ∈ m.collisionPairs, p.first < m.ngeoms ∧ p.second < m.ngeoms) :
    ∀ n lo (d : GeometryData), m.collisionPairs.length - lo = n →
      lo ≤ m.collisionPairs.length →
      d.collisionRequests.length = m.collisionPairs.length →
      forEach (GeometryData.setSecurityMarginsBody m map upper)
          (loopRange lo m.collisionPairs.length) d =
        (.ok (), { d with collisionRequests :=
                            d.collisionRequests.take lo ++
                              List.zipWith (withMargin map upper) (m.collisionPairs.drop lo)
                                (d.collisionRequests.drop lo) }) := by
  intro n
  induction n with
  | zero =>
    intro lo d h hlo hlen
    rw [loopRange_of_le (by omega), List.drop_of_length_le (by omega),
      List.take_of_length_le (by omega)]
    simp [forEach]
  | succ n ih =>
    intro lo d h hlo hlen
    have hlt : lo < m.collisionPairs.length := by omega
    have hlt2 : lo < d.collisionRequests.length := by omega
    have hcp : m.collisionPairs[lo]? = some (m.collisionPairs[lo]) :=
      List.getElem?_eq_getElem hlt
    have hq : d.collisionRequests[lo]? = some (d.collisionRequests[lo]) :=
      List.getElem?_eq_getElem hlt2
    have hin := hp _ (List.getElem_mem hlt)
    rw [loopRange_of_lt hlt, forEach,
      setSecurityMarginsBody_ok m map upper lo d _ _ hr hc hcp hin.1 hin.2 hq]
    simp only []
    rw [ih (lo + 1) _ (by omega) (by omega) (by simp [hlen])]
    simp only [take_set_succ _ _ _ hlt2, List.drop_set_of_lt _ _ (Nat.lt_succ_self lo)]
    rw [List.drop_eq_getElem_cons hlt, List.drop_eq_getElem_cons hlt2]
    simp only [List.zipWith_cons_cons, List.append_assoc, List.singleton_append]

theorem setSecurityMargins_eq (d : GeometryData) (m : GeometryModel) (map : MatrixXs)
    (upper : Bool) (hr : map.rows = m.ngeoms) (hc : map.cols = m.ngeoms)
    (hlen : m.collisionPairs.length = d.collisionRequests.length)
    (hp : ∀ p ∈ m.collisionPairs, p.first < m.ngeoms ∧ p.second < m.ngeoms) :
    d.setSecurityMargins m map upper =
      (.ok (), { d with collisionRequests :=
                          List.zipWith (withMargin map upper) m.collisionPairs
                            d.collisionRequests }) := by
  unfold GeometryData.setSecurityMargins
  simp only [hr, hc, hlen, ne_eq, not_true_eq_false, if_false]
  rw [← hlen, setSecurityMargins_loop m map upper hr hc hp _ 0 d rfl (by omega) hlen.symm]
  simp

/-- C12, as amended: for a catalog whose pairs all have both indices below the
count, a runtime state whose request array has the pair count of the catalog
as length, and a `count x count` margin matrix, the call `setSecurityMargins`
returns normally and changes nothing but the security margins of the request
array: the request at every position `k`, whose pair is `(first, second)`,
gets the margin of the cell `(min, max)` when `upper` holds and of the cell
`(max, min)` otherwise and keeps its other fields; activation flags,
placements, inner and outer maps and all the other arrays are as before, and
the request array keeps its length. -/
theorem setSecurityMargins_spec (d : GeometryData) (m : GeometryModel) (map : MatrixXs)
    (upper : Bool) (hlen : d.collisionRequests.length = m.collisionPairs.length)
    (hr : map.rows = m.ngeoms) (hc : map.cols = m.ngeoms)
    (hp : ∀ p ∈ m.collisionPairs, p.first < m.ngeoms ∧ p.second < m.ngeoms) :
    ∃ reqs : List CollisionRequest,
      d.setSecurityMargins m map upper = (.ok (), { d with collisionRequests := reqs }) ∧
      reqs.length = d.collisionRequests.length ∧
      ∀ (k : Nat) (p : CollisionPair), m.collisionPairs[k]? = some p →
        ∃ creq, d.collisionRequests[k]? = some creq ∧
          reqs[k]? = some { creq with security_margin :=
            (if upper then map.coeff (min p.first p.second) (max p.first p.second)
              else map.coeff (max p.first p.second) (min p.first p.second)) } := by
  refine ⟨_, setSecurityMargins_eq d m map upper hr hc hlen.symm hp, ?_, ?_⟩
  · rw [List.length_zipWith, hlen, Nat.min_self]
  · intro k p hk
    have hk1 : k < m.collisionPairs.length := by
      by_contra hcon
      rw [List.getElem?_eq_none (by omega)] at hk
      exact Option.noConfusion hk
    have hk2 : k < d.collisionRequests.length := by omega
    refine ⟨d.collisionRequests[k], List.getElem?_eq_getElem hk2, ?_⟩
    rw [List.getElem?_zipWith, hk, List.getElem?_eq_getElem hk2]
    rfl

/-- Witness of C12 (amended): on the state constructed for the catalog
`{A->1, B->1, C->2}` with pairs `[(0,2),(1,2)]` and the matrix of margins
`i + 10 j`, the two margins become 20 and 21 and nothing else changes. -/
theorem setSecurityMargins_spec_witness :
    pairedState.setSecurityMargins pairedCatalog sampleMargins true =
      (.ok (), { pairedState with collisionRequests := [⟨20, true, 1⟩, ⟨21, true, 1⟩] }) := by
  obtain ⟨reqs, h1, h2, h3⟩ := setSecurityMargins_spec pairedState pairedCatalog
    sampleMargins true (by decide) (by decide) (by decide) (by decide)
  obtain ⟨c0, hc0, e0⟩ := h3 0 ⟨0, 2⟩ (by decide)
  obtain ⟨c1, hc1, e1⟩ := h3 1 ⟨1, 2⟩ (by decide)
  have hl : reqs.length = 2 := h2
  have hc0v : c0 = ⟨0, true, 1⟩ := by
    have : pairedState.collisionRequests[0]? = some ⟨0, true, 1⟩ := by decide
    rw [this] at hc0
    exact (Option.some.inj hc0).symm
  have hc1v : c1 = ⟨0, true, 1⟩ := by
    have : pairedState.collisionRequests[1]? = some ⟨0, true, 1⟩ := by decide
    rw [this] at hc1
    exact (Option.some.inj hc1).symm
  subst hc0v hc1v
  have hf : reqs = [⟨20, true, 1⟩, ⟨21, true, 1⟩] := by
    match reqs, hl, e0, e1 with
    | [a, b], _, e0, e1 =>
      simp only [List.getElem?_cons_zero, List.getElem?_cons_succ, Option.some.injEq] at e0 e1
      rw [e0, e1]
      simp only [sampleMargins, if_true]
      norm_num
  rw [h1, hf]

/-- C12, as stated, fails: the catalog value with two geometries (count 2) and
the pair `(0,5)`, the state constructed for it and the 2 x 2 margin matrix
pass the three checks, and the loop then reads the cell `(0,5)` outside the
matrix: the call does not return normally and writes no margin. -/
theorem setSecurityMargins_counterexample :
    GeometryData.GeometryData strayCatalog = .ok strayState ∧
    strayState.collisionRequests.length = strayCatalog.collisionPairs.length ∧
    unitMargins.rows = strayCatalog.ngeoms ∧ unitMargins.cols = strayCatalog.ngeoms ∧
    strayState.setSecurityMargins strayCatalog unitMargins true =
      (.error .outOfRange, strayState) ∧
    ¬ ∃ reqs : List CollisionRequest,
      strayState.setSecurityMargins strayCatalog unitMargins true =
        (.ok (), { strayState with collisionRequests := reqs }) := by
  have h : strayState.setSecurityMargins strayCatalog unitMargins true =
      (.error .outOfRange, strayState) := by decide
  refine ⟨by decide, rfl, rfl, rfl, h, ?_⟩
  rintro ⟨reqs, hf⟩
  rw [h] at hf
  exact Except.noConfusion (congrArg Prod.fst hf)

/-- C20: for a reachable catalog, any runtime state and any matrix that pass
the three size checks of `setActiveCollisionPairs` (respectively
`setSecurityMargins`): at every position `k` of the pair list the cell `(i,j)`
chosen by the loop has `i` and `j` below the geometry count, which is the row
and column count of the matrix, the position `k` is below the length of the
per-pair array that is written, and the call returns normally, that is,
without any access out of range. -/
theorem setters_in_range (m : GeometryModel) (hm : Reachable m) (d : GeometryData)
    (map : MatrixXb) (margins : MatrixXs) (upper : Bool) :
    (map.rows = m.ngeoms → map.cols = m.ngeoms →
      m.collisionPairs.length = d.activeCollisionPairs.length →
      (∀ (k : Nat) (p : CollisionPair), m.collisionPairs[k]? = some p →
        (if upper then min p.first p.second else max p.first p.second) < m.ngeoms ∧
        (if upper then max p.first p.second else min p.first p.second) < m.ngeoms ∧
        (if upper then min p.first p.second else max p.first p.second) < map.rows ∧
        (if upper then max p.first p.second else min p.first p.second) < map.cols ∧
        k < d.activeCollisionPairs.length) ∧
      (d.setActiveCollisionPairs m map upper).1 = .ok ()) ∧
    (margins.rows = m.ngeoms → margins.cols = m.ngeoms →
      m.collisionPairs.length = d.collisionRequests.length →
      (∀ (k : Nat) (p : CollisionPair), m.collisionPairs[k]? = some p →
        (if upper then min p.first p.second else max p.first p.second) < m.ngeoms ∧
        (if upper then max p.first p.second else min p.first p.second) < m.ngeoms ∧
        (if upper then min p.first p.second else max p.first p.second) < margins.rows ∧
        (if upper then max p.first p.second else min p.first p.second) < margins.cols ∧
        k < d.collisionRequests.length) ∧
      (d.setSecurityMargins m margins upper).1 = .ok ()) := by
  have hp : ∀ p ∈ m.collisionPairs, p.first < m.ngeoms ∧ p.second < m.ngeoms :=
    hm.wellFormed.2.2
  have hpos : ∀ (k : Nat) (p : CollisionPair), m.collisionPairs[k]? = some p →
      k < m.collisionPairs.length ∧ p.first < m.ngeoms ∧ p.second < m.ngeoms := by
    intro k p hk
    have hk1 : k < m.collisionPairs.length := by
      by_contra hcon
      rw [List.getElem?_eq_none (by omega)] at hk
      exact Option.noConfusion hk
    rw [List.getElem?_eq_getElem hk1] at hk
    have hmem : p ∈ m.collisionPairs := by
      rw [← Option.some.inj hk]
      exact List.getElem_mem hk1
    exact ⟨hk1, hp p hmem⟩
  constructor
  · intro hr hc hlen
    refine ⟨?_, ?_⟩
    · intro k p hk
      obtain ⟨h1, h2, h3⟩ := hpos k p hk
      rw [hr, hc]
      cases upper <;> simp only [if_true, if_false, Bool.false_eq_true] <;>
        refine ⟨?_, ?_, ?_, ?_, ?_⟩ <;> omega
    · rw [setActiveCollisionPairs_eq d m map upper hr hc hlen hp]
  · intro hr hc hlen
    refine ⟨?_, ?_⟩
    · intro k p hk
      obtain ⟨h1, h2, h3⟩ := hpos k p hk
      rw [hr, hc]
      cases upper <;> simp only [if_true, if_false, Bool.false_eq_true] <;>
        refine ⟨?_, ?_, ?_, ?_, ?_⟩ <;> omega
    · rw [setSecurityMargins_eq d m margins upper hr hc hlen hp]

/-- Witness of C20 on the reachable catalog `{A->1, B->1, C->2}` with pairs
`[(0,2),(1,2)]`, the state constructed for it and 3 x 3 matrices: both calls
return normally. -/
theorem setters_in_range_witness :
    Reachable pairedCatalog ∧
    (pairedState.setActiveCollisionPairs pairedCatalog cornerMatrix false).1 = .ok () ∧
    (pairedState.setSecurityMargins pairedCatalog sampleMargins false).1 = .ok () :=
  have h := setters_in_range pairedCatalog pairedCatalog_reachable pairedState cornerMatrix
    sampleMargins false
  ⟨pairedCatalog_reachable, (h.1 (by decide) (by decide) (by decide)).2,
    (h.2 (by decide) (by decide) (by decide)).2⟩

/-! ## Registration of a geometry against a kinematic model -/

/-- C15, as amended: for a catalog whose count is the length of its geometry
list, and an object whose parent frame index is below the frame count of the
model, `fr` being that frame: `addGeometryObject(object, model)` raises the
argument error exactly when the parent joint of the object differs from the
parent joint of the frame, and then the catalog is unchanged; otherwise it
returns the previous count, the count grows by one, the object is stored at
the returned index with the parent joint of the frame, and the earlier
geometries and the pair list are unchanged. -/
theorem addGeometryObject_with_model (m : GeometryModel) (object : GeometryObject)
    (model : Model) (fr : Frame) (hG : m.ngeoms = m.geometryObjects.length)
    (hlt : object.parentFrame < model.nframes)
    (hfr : model.frames[object.parentFrame]? = some fr) :
    ((m.addGeometryObjectWithModel object model).1 = .error .invalidArgument ↔
      object.parentJoint ≠ fr.parent) ∧
    (object.parentJoint ≠ fr.parent →
      m.addGeometryObjectWithModel object model = (.error .invalidArgument, m)) ∧
    (object.parentJoint = fr.parent →
      m.addGeometryObjectWithModel object model =
        (.ok m.ngeoms,
          ⟨m.ngeoms + 1, m.geometryObjects ++ [{ object with parentJoint := fr.parent }],
            m.collisionPairs⟩) ∧
      (m.addGeometryObjectWithModel object model).2.geometryObjects[m.ngeoms]? =
        some { object with parentJoint := fr.parent } ∧
      ∀ k, k < m.ngeoms →
        (m.addGeometryObjectWithModel object model).2.geometryObjects[k]? =
          m.geometryObjects[k]?) := by
  unfold GeometryModel.addGeometryObjectWithModel
  by_cases hj : fr.parent = object.parentJoint
  · simp only [hlt, hfr, hj, if_true, ne_eq, not_true_eq_false, iff_false, false_implies,
      true_implies, true_and]
    refine ⟨by simp, ?_, ?_⟩
    · rw [hG]
      simp
    · intro k hk
      rw [hG] at hk
      exact List.getElem?_append_left hk
  · have hj2 : ¬ object.parentJoint = fr.parent := fun e => hj e.symm
    simp [hlt, hfr, hj, hj2]

/-- Witness of C15 (amended): adding an object of frame 0 and joint 0 to the
catalog `{A, B, C}` against the one-frame model returns the index 3 and
stores the object there. -/
theorem addGeometryObject_with_model_witness :
    builtCatalog.addGeometryObjectWithModel ⟨"D", 0, 0⟩ oneFrameModel =
      (.ok 3, ⟨4, builtCatalog.geometryObjects ++ [⟨"D", 0, 0⟩], builtCatalog.collisionPairs⟩) ∧
    (builtCatalog.addGeometryObjectWithModel ⟨"D", 0, 0⟩ oneFrameModel).2.geometryObjects[3]? =
      some ⟨"D", 0, 0⟩ :=
  have h := addGeometryObject_with_model builtCatalog ⟨"D", 0, 0⟩ oneFrameModel ⟨0⟩
    (by decide) (by decide) (by decide)
  ⟨(h.2.2 rfl).1, (h.2.2 rfl).2.1⟩

/-- C15, as stated, fails: on the catalog value with count 1 and no geometry
the call returns the previous count, 1, but the object is stored at position
0, and nothing is stored at the returned index. -/
theorem addGeometryObject_with_model_counterexample :
    (0 : Nat) < oneFrameModel.nframes ∧
    miscountedCatalog.addGeometryObjectWithModel ⟨"A", 0, 0⟩ oneFrameModel =
      (.ok 1, ⟨2, [⟨"A", 0, 0⟩], []⟩) ∧
    (miscountedCatalog.addGeometryObjectWithModel ⟨"A", 0, 0⟩ oneFrameModel).2.geometryObjects[1]?
      = none ∧
    ¬ ((miscountedCatalog.addGeometryObjectWithModel ⟨"A", 0, 0⟩ oneFrameModel).2.geometryObjects[1]?
      = some ⟨"A", 0, 0⟩) := by
  decide

/-- C19, evaluated at the failing input: on the empty catalog, with a model
of one frame and an object whose parent frame index is 7, the check of line 74
is skipped and line 80 then reads `model.frames[7]` outside the frame
vector. -/
theorem addGeometryObject_frame_read :
    oneFrameModel.nframes ≤ (⟨"A", 7, 1⟩ : GeometryObject).parentFrame ∧
    GeometryModel.empty.addGeometryObjectWithModel ⟨"A", 7, 1⟩ oneFrameModel =
      (.error .outOfRange, ⟨1, [⟨"A", 7, 1⟩], []⟩) := by
  decide

/-- C17: in every reachable catalog (calls that raise included) the pair list
has no duplicate, every stored pair has both indices below the count, and the
count is the length of the geometry list. -/
theorem reachable_invariants (m : GeometryModel) (hm : Reachable m) :
    m.collisionPairs.Nodup ∧
    (∀ p ∈ m.collisionPairs, p.first < m.ngeoms ∧ p.second < m.ngeoms) ∧
    m.ngeoms = m.geometryObjects.length :=
  ⟨hm.wellFormed.2.1, hm.wellFormed.2.2, hm.wellFormed.1⟩

/-- Witness of C17 on the catalog `{A->1, B->1, C->2}` after
`addAllCollisionPairs`, a repeated insertion of `(0,2)` and a raising
insertion of `(0,7)`: the pair list is still `[(0,2),(1,2)]`. -/
theorem reachable_invariants_witness :
    ((pairedCatalog.addCollisionPair ⟨0, 2⟩).2.addCollisionPair ⟨0, 7⟩).1 =
      .error .invalidArgument ∧
    ((pairedCatalog.addCollisionPair ⟨0, 2⟩).2.addCollisionPair ⟨0, 7⟩).2.collisionPairs =
      [⟨0, 2⟩, ⟨1, 2⟩] ∧
    ((pairedCatalog.addCollisionPair ⟨0, 2⟩).2.addCollisionPair ⟨0, 7⟩).2.collisionPairs.Nodup ∧
    ((pairedCatalog.addCollisionPair ⟨0, 2⟩).2.addCollisionPair ⟨0, 7⟩).2.ngeoms = 3 :=
  have h := reachable_invariants _
    (Reachable.addCollisionPair ⟨0, 7⟩
      (Reachable.addCollisionPair ⟨0, 2⟩ pairedCatalog_reachable))
  ⟨by decide, by decide, h.1, by decide⟩

/-! ## Joint maps -/

theorem mapFind_none_of_lt : ∀ (mp : JointMap) (key : Nat),
    (∀ e ∈ mp, key < e.1) → mapFind mp key = none := by
  intro mp
  induction mp with
  | nil =>
    intro key _
    rfl
  | cons e rest ih =>
    intro key h
    obtain ⟨k, vs⟩ := e
    have hk : key < k := h (k, vs) (List.mem_cons_self _ _)
    have hne : ¬ k = key := by omega
    simp only [mapFind, hne, if_false]
    exact ih key (fun e he => h e (List.mem_cons_of_mem _ he))

theorem mapPushBack_fst : ∀ (mp : JointMap) (k v : Nat) (e : Nat × List Nat),
    e ∈ mapPushBack mp k v → e.1 = k ∨ ∃ e2 ∈ mp, e2.1 = e.1 := by
  intro mp
  induction mp with
  | nil =>
    intro k v e he
    simp only [mapPushBack, List.mem_singleton] at he
    exact Or.inl (by rw [he])
  | cons e0 rest ih =>
    intro k v e he
    obtain ⟨k0, vs⟩ := e0
    unfold mapPushBack at he
    by_cases h1 : k0 = k
    · simp only [h1, if_true, List.mem_cons] at he
      rcases he with he | he
      · exact Or.inl (by rw [he])
      · exact Or.inr ⟨e, List.mem_cons_of_mem _ he, rfl⟩
    · by_cases h2 : k < k0
      · simp only [h1, h2, if_true, if_false, List.mem_cons] at he
        rcases he with he | he | he
        · exact Or.inl (by rw [he])
        · exact Or.inr ⟨(k0, vs), List.mem_cons_self _ _, by rw [he]⟩
        · exact Or.inr ⟨e, List.mem_cons_of_mem _ he, rfl⟩
      · simp only [h1, h2, if_false, List.mem_cons] at he
        rcases he with he | he
        · exact Or.inr ⟨(k0, vs), List.mem_cons_self _ _, by rw [he]⟩
        · rcases ih k v e he with h | ⟨e2, he2, h⟩
          · exact Or.inl h
          · exact Or.inr ⟨e2, List.mem_cons_of_mem _ he2, h⟩

theorem mapPushBack_sorted : ∀ (mp : JointMap) (k v : Nat),
    keysSorted mp → keysSorted (mapPushBack mp k v) := by
  intro mp
  induction mp with
  | nil =>
    intro k v _
    simp [mapPushBack, keysSorted]
  | cons e0 rest ih =>
    intro k v h
    obtain ⟨k0, vs⟩ := e0
    unfold keysSorted at h ⊢
    rw [List.pairwise_cons] at h
    obtain ⟨hhead, htail⟩ := h
    unfold mapPushBack
    by_cases h1 : k0 = k
    · simp only [h1, if_true]
      rw [List.pairwise_cons]
      exact ⟨fun e he => by have := hhead e he; simp only at this ⊢; omega, htail⟩
    · by_cases h2 : k < k0
      · simp only [h1, h2, if_true, if_false]
        rw [List.pairwise_cons, List.pairwise_cons]
        refine ⟨?_, hhead, htail⟩
        intro e he
        rcases List.mem_cons.mp he with he | he
        · rw [he]
          exact h2
        · have := hhead e he
          simp only at this ⊢
          omega
      · simp only [h1, h2, if_false]
        rw [List.pairwise_cons]
        refine ⟨?_, ih k v htail⟩
        intro e he
        rcases mapPushBack_fst rest k v e he with h | ⟨e2, he2, h⟩
        · simp only
          omega
        · have := hhead e2 he2
          simp only at this ⊢
          omega

theorem mapFind_mapPushBack : ∀ (mp : JointMap) (k v j : Nat), keysSorted mp →
    mapFind (mapPushBack mp k v) j =
      if j = k then some ((mapFind mp k).getD [] ++ [v]) else mapFind mp j := by
  intro mp
  induction mp with
  | nil =>
    intro k v j _
    by_cases hj : j = k
    · simp [mapPushBack, mapFind, hj]
    · have hj2 : ¬ k = j := fun e => hj e.symm
      simp [mapPushBack, mapFind, hj, hj2]
  | cons e0 rest ih =>
    intro k v j h
    obtain ⟨k0, vs⟩ := e0
    unfold keysSorted at h
    rw [List.pairwise_cons] at h
    obtain ⟨hhead, htail⟩ := h
    unfold mapPushBack
    by_cases h1 : k0 = k
    · subst h1
      by_cases hj : j = k0
      · simp [mapFind, hj]
      · have hj2 : ¬ k0 = j := fun e => hj e.symm
        simp [mapFind, hj, hj2]
    · by_cases h2 : k < k0
      · simp only [h1, h2, if_true, if_false]
        by_cases hj : j = k
        · subst hj
          have hnone : mapFind ((k0, vs) :: rest) j = none := by
            apply mapFind_none_of_lt
            intro e he
            rcases List.mem_cons.mp he with he | he
            · rw [he]
              exact h2
            · have := hhead e he
              simp only at this
              omega
          rw [hnone]
          simp [mapFind]
        · have hj2 : ¬ k = j := fun e => hj e.symm
          simp [mapFind, hj, hj2]
      · simp only [h1, h2, if_false]
        have hrec := ih k v j htail
        by_cases hj0 : k0 = j
        · have hjk : ¬ j = k := by omega
          simp [mapFind, hj0, hjk]
        · by_cases hj : j = k
          · subst hj
            simp only [mapFind, hj0, if_false, if_true]
            rw [hrec]
            simp
          · simp only [mapFind, hj0, if_false, hrec, hj]

theorem totalLength_mapPushBack : ∀ (mp : JointMap) (k v : Nat),
    totalLength (mapPushBack mp k v) = totalLength mp + 1 := by
  intro mp
  induction mp with
  | nil =>
    intro k v
    simp [mapPushBack, totalLength]
  | cons e0 rest ih =>
    intro k v
    obtain ⟨k0, vs⟩ := e0
    have hrec := ih k v
    unfold totalLength at hrec ⊢
    unfold mapPushBack
    by_cases h1 : k0 = k
    · simp [h1]
      omega
    · by_cases h2 : k < k0
      · simp [h1, h2]
        omega
      · simp [h1, h2, hrec]
        omega

theorem mapPushBack_nonempty : ∀ (mp : JointMap) (k v : Nat),
    (∀ e ∈ mp, e.2 ≠ []) → ∀ e ∈ mapPushBack mp k v, e.2 ≠ [] := by
  intro mp
  induction mp with
  | nil =>
    intro k v _ e he
    simp only [mapPushBack, List.mem_singleton] at he
    rw [he]
    simp
  | cons e0 rest ih =>
    intro k v h e he
    obtain ⟨k0, vs⟩ := e0
    unfold mapPushBack at he
    by_cases h1 : k0 = k
    · simp only [h1, if_true, List.mem_cons] at he
      rcases he with he | he
      · rw [he]
        simp
      · exact h e (List.mem_cons_of_mem _ he)
    · by_cases h2 : k < k0
      · simp only [h1, h2, if_true, if_false, List.mem_cons] at he
        rcases he with he | he | he
        · rw [he]
          simp
        · rw [he]
          exact h (k0, vs) (List.mem_cons_self _ _)
        · exact h e (List.mem_cons_of_mem _ he)
      · simp only [h1, h2, if_false, List.mem_cons] at he
        rcases he with he | he
        · rw [he]
          exact h (k0, vs) (List.mem_cons_self _ _)
        · exact ih k v (fun e2 he2 => h e2 (List.mem_cons_of_mem _ he2)) e he

theorem mem_of_mapFind : ∀ (mp : JointMap) (j : Nat) (l : List Nat),
    mapFind mp j = some l → (j, l) ∈ mp := by
  intro mp
  induction mp with
  | nil =>
    intro j l h
    simp [mapFind] at h
  | cons e0 rest ih =>
    intro j l h
    obtain ⟨k0, vs⟩ := e0
    unfold mapFind at h
    by_cases h1 : k0 = j
    · simp only [h1, if_true, Option.some.injEq] at h
      rw [h1, h]
      exact List.mem_cons_self _ _
    · simp only [h1, if_false] at h
      exact List.mem_cons_of_mem _ (ih j l h)

theorem pushAll_sorted : ∀ (kvs : List (Nat × Nat)) (mp : JointMap),
    keysSorted mp → keysSorted (pushAll mp kvs) := by
  intro kvs
  induction kvs with
  | nil =>
    intro mp h
    exact h
  | cons kv rest ih =>
    intro mp h
    exact ih _ (mapPushBack_sorted mp kv.1 kv.2 h)

theorem pushAll_nonempty : ∀ (kvs : List (Nat × Nat)) (mp : JointMap),
    (∀ e ∈ mp, e.2 ≠ []) → ∀ e ∈ pushAll mp kvs, e.2 ≠ [] := by
  intro kvs
  induction kvs with
  | nil =>
    intro mp h
    exact h
  | cons kv rest ih =>
    intro mp h
    exact ih _ (mapPushBack_nonempty mp kv.1 kv.2 h)

theorem totalLength_pushAll : ∀ (kvs : List (Nat × Nat)) (mp : JointMap),
    totalLength (pushAll mp kvs) = totalLength mp + kvs.length := by
  intro kvs
  induction kvs with
  | nil =>
    intro mp
    rfl
  | cons kv rest ih =>
    intro mp
    have h := ih (mapPushBack mp kv.1 kv.2)
    rw [totalLength_mapPushBack] at h
    simp only [pushAll, List.foldl_cons, List.length_cons] at h ⊢
    omega

theorem mapFind_pushAll : ∀ (kvs : List (Nat × Nat)) (mp : JointMap) (j : Nat),
    keysSorted mp →
    (mapFind (pushAll mp kvs) j).getD [] =
      (mapFind mp j).getD [] ++
        (kvs.filter (fun kv => decide (kv.1 = j))).map (fun kv => kv.2) := by
  intro kvs
  induction kvs with
  | nil =>
    intro mp j _
    simp [pushAll]
  | cons kv rest ih =>
    intro mp j h
    have hrec := ih (mapPushBack mp kv.1 kv.2) j (mapPushBack_sorted mp kv.1 kv.2 h)
    have hstep := mapFind_mapPushBack mp kv.1 kv.2 j h
    simp only [pushAll, List.foldl_cons] at hrec ⊢
    rw [hrec, hstep]
    by_cases hj : j = kv.1
    · have hj2 : kv.1 = j := hj.symm
      simp [hj2, List.filter_cons]
    · have hj2 : ¬ kv.1 = j := fun e => hj e.symm
      simp [hj, hj2, List.filter_cons]

theorem filterMap_length_of_some {α β : Type} (f : α → Option β) :
    ∀ xs : List α, (∀ x ∈ xs, f x ≠ none) → (xs.filterMap f).length = xs.length := by
  intro xs
  induction xs with
  | nil =>
    intro _
    rfl
  | cons x rest ih =>
    intro h
    have hx := h x (List.mem_cons_self _ _)
    cases hfx : f x with
    | none => exact absurd hfx hx
    | some y =>
      rw [List.filterMap_cons_some hfx, List.length_cons, List.length_cons,
        ih (fun z hz => h z (List.mem_cons_of_mem _ hz))]

theorem inner_entries_of_joint (gs : List GeometryObject) (joint : Nat) :
    ∀ xs : List Nat,
      ((xs.filterMap (fun gid => (gs[gid]?).map (fun g => (g.parentJoint, gid)))).filter
        (fun kv => decide (kv.1 = joint))).map (fun kv => kv.2) =
      xs.filter (fun gid => decide ((gs[gid]?).map (fun g => g.parentJoint) = some joint)) := by
  intro xs
  induction xs with
  | nil => rfl
  | cons x rest ih =>
    cases hx : gs[x]? with
    | none =>
      simp only [List.filterMap_cons, hx, Option.map_none', List.filter_cons, ih]
      simp
    | some g =>
      simp only [List.filterMap_cons, hx, Option.map_some', List.filter_cons,
        Option.some.injEq]
      by_cases hj : g.parentJoint = joint
      · simp only [hj, decide_True, if_true, List.map_cons, ih]
      · simp only [hj, decide_False, if_false, Bool.false_eq_true, ih]

theorem outer_entries_of_joint (gs : List GeometryObject) (joint : Nat) :
    ∀ ps : List CollisionPair,
      ((ps.filterMap (fun p => (gs[p.first]?).map (fun g => (g.parentJoint, p.second)))).filter
        (fun kv => decide (kv.1 = joint))).map (fun kv => kv.2) =
      (ps.filter (fun p =>
        decide ((gs[p.first]?).map (fun g => g.parentJoint) = some joint))).map
        (fun p => p.second) := by
  intro ps
  induction ps with
  | nil => rfl
  | cons x rest ih =>
    cases hx : gs[x.first]? with
    | none =>
      simp only [List.filterMap_cons, hx, Option.map_none', List.filter_cons, ih]
      simp
    | some g =>
      simp only [List.filterMap_cons, hx, Option.map_some', List.filter_cons,
        Option.some.injEq]
      by_cases hj : g.parentJoint = joint
      · simp only [hj, decide_True, if_true, List.map_cons, ih]
      · simp only [hj, decide_False, if_false, Bool.false_eq_true, ih]

theorem fill_inner_loop (gs : List GeometryObject) :
    ∀ (xs : List Nat) (s : GeometryData), (∀ x ∈ xs, x < gs.length) →
      forEach (fun gid (s : GeometryData) =>
          match gs[gid]? with
          | none => (.error .outOfRange, s)
          | some g =>
            (.ok (), { s with innerObjects := mapPushBack s.innerObjects g.parentJoint gid }))
        xs s =
      (.ok (), { s with innerObjects := pushAll s.innerObjects (xs.filterMap
                  (fun gid => (gs[gid]?).map (fun g => (g.parentJoint, gid)))) }) := by
  intro xs
  induction xs with
  | nil =>
    intro s _
    rfl
  | cons x rest ih =>
    intro s h
    have hx : x < gs.length := h x (List.mem_cons_self _ _)
    rw [forEach]
    simp only [List.getElem?_eq_getElem hx, List.filterMap_cons, Option.map_some']
    rw [ih _ (fun z hz => h z (List.mem_cons_of_mem _ hz))]
    rfl

theorem fill_outer_loop (gs : List GeometryObject) :
    ∀ (ps : List CollisionPair) (s : GeometryData), (∀ p ∈ ps, p.first < gs.length) →
      forEach (fun (pair : CollisionPair) (s : GeometryData) =>
          match gs[pair.first]? with
          | none => (.error .outOfRange, s)
          | some g =>
            (.ok (), { s with outerObjects :=
                               mapPushBack s.outerObjects g.parentJoint pair.second }))
        ps s =
      (.ok (), { s with outerObjects := pushAll s.outerObjects (ps.filterMap
                  (fun p => (gs[p.first]?).map (fun g => (g.parentJoint, p.second)))) }) := by
  intro ps
  induction ps with
  | nil =>
    intro s _
    rfl
  | cons x rest ih =>
    intro s h
    have hx : x.first < gs.length := h x (List.mem_cons_self _ _)
    rw [forEach]
    simp only [List.getElem?_eq_getElem hx, List.filterMap_cons, Option.map_some']
    rw [ih _ (fun z hz => h z (List.mem_cons_of_mem _ hz))]
    rfl

theorem fillInnerOuterObjectMaps_eq (d : GeometryData) (m : GeometryModel)
    (hp : ∀ p ∈ m.collisionPairs, p.first < m.geometryObjects.length) :
    d.fillInnerOuterObjectMaps m =
      (.ok (), { d with
        innerObjects := pushAll [] ((loopRange 0 m.geometryObjects.length).filterMap
                          (fun gid => (m.geometryObjects[gid]?).map (fun g => (g.parentJoint, gid))))
        outerObjects := pushAll [] (m.collisionPairs.filterMap
                          (fun p => (m.geometryObjects[p.first]?).map
                            (fun g => (g.parentJoint, p.second)))) }) := by
  unfold GeometryData.fillInnerOuterObjectMaps
  simp only []
  rw [fill_inner_loop m.geometryObjects _ _ (fun x hx => (mem_loopRange.mp hx).2)]
  simp only []
  rw [fill_outer_loop m.geometryObjects _ _ hp]

theorem forEach_ok_all {α σ : Type} (body : α → σ → Except Error Unit × σ) :
    ∀ (xs : List α) (s s1 : σ), forEach body xs s = (.ok (), s1) →
      ∀ x ∈ xs, ∃ s0 s2, body x s0 = (.ok (), s2) := by
  intro xs
  induction xs with
  | nil =>
    intro s s1 _ x hx
    simp at hx
  | cons y rest ih =>
    intro s s1 h x hx
    rw [forEach] at h
    cases hb : body y s with
    | mk r s2 =>
      rw [hb] at h
      cases r with
      | error e =>
        simp only [Prod.mk.injEq] at h
        exact absurd h.1 (by simp)
      | ok u =>
        simp only at h
        rcases List.mem_cons.mp hx with hx | hx
        · rw [hx]
          exact ⟨s, s2, hb⟩
        · exact ih s2 s1 h x hx

theorem construct_pairs_in_range (m : GeometryModel) (d : GeometryData)
    (h : GeometryData.GeometryData m = .ok d) :
    ∀ p ∈ m.collisionPairs, p.first < m.geometryObjects.length := by
  intro p hp
  by_contra hcon
  have hnone : m.geometryObjects[p.first]? = none := List.getElem?_eq_none (by omega)
  unfold GeometryData.GeometryData GeometryData.fillInnerOuterObjectMaps at h
  simp only [] at h
  rw [fill_inner_loop m.geometryObjects _ _ (fun x hx => (mem_loopRange.mp hx).2)] at h
  simp only [] at h
  split at h
  · rename_i u d3 hf
    cases u
    obtain ⟨s0, s2, hb⟩ := forEach_ok_all _ _ _ _ hf p hp
    simp only [hnone, Prod.mk.injEq] at hb
    exact absurd hb.1 (by simp)
  · exact Except.noConfusion h

theorem construct_maps (m : GeometryModel) (d : GeometryData)
    (h : GeometryData.GeometryData m = .ok d) :
    d.innerObjects = pushAll [] ((loopRange 0 m.geometryObjects.length).filterMap
      (fun gid => (m.geometryObjects[gid]?).map (fun g => (g.parentJoint, gid)))) ∧
    d.outerObjects = pushAll [] (m.collisionPairs.filterMap
      (fun p => (m.geometryObjects[p.first]?).map (fun g => (g.parentJoint, p.second)))) := by
  have hp := construct_pairs_in_range m d h
  unfold GeometryData.GeometryData at h
  simp only [] at h
  rw [fillInnerOuterObjectMaps_eq _ m hp] at h
  simp only [Except.ok.injEq] at h
  rw [← h]
  exact ⟨rfl, rfl⟩

theorem loopRange_zero (n : Nat) : loopRange 0 n = List.range n := by
  rw [loopRange, Nat.sub_zero, List.range_eq_range']

theorem construct_inner (m : GeometryModel) (d : GeometryData)
    (h : GeometryData.GeometryData m = .ok d) (joint : Nat) :
    (mapFind d.innerObjects joint).getD [] =
      (List.range m.geometryObjects.length).filter
        (fun g => decide (m.parentJointAt g = some joint)) := by
  rw [(construct_maps m d h).1, mapFind_pushAll _ _ _ List.Pairwise.nil,
    inner_entries_of_joint, loopRange_zero]
  rfl

theorem construct_outer (m : GeometryModel) (d : GeometryData)
    (h : GeometryData.GeometryData m = .ok d) (joint : Nat) :
    (mapFind d.outerObjects joint).getD [] =
      (m.collisionPairs.filter
        (fun p => decide (m.parentJointAt p.first = some joint))).map (fun p => p.second) := by
  rw [(construct_maps m d h).2, mapFind_pushAll _ _ _ List.Pairwise.nil,
    outer_entries_of_joint]
  rfl

theorem construct_joint_maps (m : GeometryModel)
    (hp : ∀ p ∈ m.collisionPairs, p.first < m.geometryObjects.length) :
    ∃ d : GeometryData, GeometryData.GeometryData m = .ok d ∧
      (∀ joint : Nat, (mapFind d.innerObjects joint).getD [] =
        (List.range m.geometryObjects.length).filter
          (fun g => decide (m.parentJointAt g = some joint))) ∧
      (∀ joint : Nat, ((mapFind d.innerObjects joint).getD []).Pairwise (fun a b => a < b)) ∧
      (∀ joint : Nat, (mapFind d.outerObjects joint).getD [] =
        (m.collisionPairs.filter
          (fun p => decide (m.parentJointAt p.first = some joint))).map (fun p => p.second)) ∧
      (∀ joint : Nat, mapFind d.innerObjects joint ≠ some [] ∧
        mapFind d.outerObjects joint ≠ some []) ∧
      (∀ g : Nat, g < m.geometryObjects.length →
        ∃ joint : Nat, g ∈ (mapFind d.innerObjects joint).getD [] ∧
          ∀ joint2 : Nat, g ∈ (mapFind d.innerObjects joint2).getD [] → joint2 = joint) ∧
      (d.outerObjects.map (fun e => e.2.length)).sum = m.collisionPairs.length := by
  obtain ⟨d, hd, _⟩ := fillInnerOuterObjectMaps_ok
    { oMg := List.replicate m.ngeoms SE3.init
      activeCollisionPairs := List.replicate m.collisionPairs.length true
      distanceRequests := (List.replicate m.collisionPairs.length DistanceRequest.init).map
        (fun dreq => { dreq with enable_cached_gjk_guess := true })
      distanceResults := List.replicate m.collisionPairs.length QueryResult.init
      collisionRequests := (List.replicate m.collisionPairs.length CollisionRequest.init).map
        (fun creq => { creq with enable_cached_gjk_guess := true })
      collisionResults := List.replicate m.collisionPairs.length QueryResult.init
      radius := []
      collisionPairIndex := 0
      innerObjects := []
      outerObjects := [] } m hp
  have hc : GeometryData.GeometryData m = .ok d := by
    unfold GeometryData.GeometryData
    simp only []
    rw [hd]
  have hin := construct_inner m d hc
  have hout := construct_outer m d hc
  have hmaps := construct_maps m d hc
  refine ⟨d, hc, hin, ?_, hout, ?_, ?_, ?_⟩
  · intro joint
    rw [hin joint]
    exact (List.pairwise_lt_range _).filter _
  · intro joint
    constructor
    · intro hsome
      have hmem := mem_of_mapFind _ _ _ hsome
      rw [hmaps.1] at hmem
      exact pushAll_nonempty _ [] (by simp) _ hmem rfl
    · intro hsome
      have hmem := mem_of_mapFind _ _ _ hsome
      rw [hmaps.2] at hmem
      exact pushAll_nonempty _ [] (by simp) _ hmem rfl
  · intro g hg
    refine ⟨(m.geometryObjects[g]).parentJoint, ?_, ?_⟩
    · rw [hin]
      simp [GeometryModel.parentJointAt, List.getElem?_eq_getElem hg, hg]
    · intro joint2 h2
      rw [hin] at h2
      simp [GeometryModel.parentJointAt, List.getElem?_eq_getElem hg, hg] at h2
      exact h2.symm
  · have ht := totalLength_pushAll (m.collisionPairs.filterMap
      (fun p => (m.geometryObjects[p.first]?).map (fun g => (g.parentJoint, p.second)))) []
    rw [← hmaps.2] at ht
    unfold totalLength at ht
    rw [ht, filterMap_length_of_some]
    · simp
    · intro p hpm
      simp [List.getElem?_eq_getElem (hp p hpm)]

/-- C16, as amended: for a catalog whose count is the length of its geometry
list and whose pairs all have a first index below the count, the constructor
returns a state in which, for every joint `J`, the inner list of `J` is the
increasing list of the geometry indices whose parent joint is `J` and the outer
list of `J` is the list, in pair-list order, of the second indices of the
pairs whose first geometry has parent joint `J` (a joint without entry counting
as the empty list); no stored list is empty, every geometry index is in the
inner list of exactly one joint, and the lengths of the outer lists sum to the
pair count. -/
theorem joint_maps_spec (m : GeometryModel)
    (hG : m.ngeoms = m.geometryObjects.length)
    (hp : ∀ p ∈ m.collisionPairs, p.first < m.ngeoms) :
    ∃ d : GeometryData, GeometryData.GeometryData m = .ok d ∧
      (∀ joint : Nat, (mapFind d.innerObjects joint).getD [] =
        (List.range m.ngeoms).filter (fun g => decide (m.parentJointAt g = some joint))) ∧
      (∀ joint : Nat, ((mapFind d.innerObjects joint).getD []).Pairwise (fun a b => a < b)) ∧
      (∀ joint : Nat, (mapFind d.outerObjects joint).getD [] =
        (m.collisionPairs.filter
          (fun p => decide (m.parentJointAt p.first = some joint))).map (fun p => p.second)) ∧
      (∀ joint : Nat, mapFind d.innerObjects joint ≠ some [] ∧
        mapFind d.outerObjects joint ≠ some []) ∧
      (∀ g : Nat, g < m.ngeoms →
        ∃ joint : Nat, g ∈ (mapFind d.innerObjects joint).getD [] ∧
          ∀ joint2 : Nat, g ∈ (mapFind d.innerObjects joint2).getD [] → joint2 = joint) ∧
      (d.outerObjects.map (fun e => e.2.length)).sum = m.collisionPairs.length := by
  rw [hG] at hp ⊢
  exact construct_joint_maps m hp

/-- Witness of C16 (amended) on the catalog `{A->1, B->1, C->2}` with pairs
`[(0,2),(1,2)]`: inner(1) = `[0,1]`, inner(2) = `[2]`, outer(1) = `[2,2]`,
outer(2) is empty. -/
theorem joint_maps_spec_witness :
    ∃ d : GeometryData, GeometryData.GeometryData pairedCatalog = .ok d ∧
      (mapFind d.innerObjects 1).getD [] = [0, 1] ∧
      (mapFind d.innerObjects 2).getD [] = [2] ∧
      (mapFind d.outerObjects 1).getD [] = [2, 2] ∧
      (mapFind d.outerObjects 2).getD [] = [] := by
  obtain ⟨d, h1, h2, _, h3, _⟩ := joint_maps_spec pairedCatalog (by decide) (by decide)
  refine ⟨d, h1, ?_, ?_, ?_, ?_⟩
  · rw [h2 1]
    decide
  · rw [h2 2]
    decide
  · rw [h3 1]
    decide
  · rw [h3 2]
    decide

/-- C16, as stated, fails: the catalog value with count 1, no geometry and the
pair `(0,0)` has every first index below the count, and the constructor reads
`geometryObjects[0]` outside the empty geometry list, so no runtime state and
no joint map is returned. -/
theorem joint_maps_counterexample :
    (∀ p ∈ emptyListCatalog.collisionPairs, p.first < emptyListCatalog.ngeoms) ∧
    GeometryData.GeometryData emptyListCatalog = .error .outOfRange ∧
    ¬ ∃ d : GeometryData, GeometryData.GeometryData emptyListCatalog = .ok d := by
  have h : GeometryData.GeometryData emptyListCatalog = .error .outOfRange := by decide
  refine ⟨by decide, h, ?_⟩
  rintro ⟨d, hd⟩
  rw [h] at hd
  exact Except.noConfusion hd

/-! ## The outer map under activation changes -/

theorem forEach_state_inv {α σ : Type} (body : α → σ → Except Error Unit × σ)
    (P : σ → Prop) (hb : ∀ x s, P s → P (body x s).2) :
    ∀ (xs : List α) (s : σ), P s → P (forEach body xs s).2 := by
  intro xs
  induction xs with
  | nil =>
    intro s hs
    exact hs
  | cons x rest ih =>
    intro s hs
    have h1 := hb x s hs
    rw [forEach]
    cases hbx : body x s with
    | mk r s2 =>
      rw [hbx] at h1
      cases r with
      | error e => exact h1
      | ok u => exact ih s2 h1

theorem setActiveCollisionPairsBody_maps (m : GeometryModel) (map : MatrixXb) (upper : Bool)
    (k : Nat) (d : GeometryData) :
    (GeometryData.setActiveCollisionPairsBody m map upper k d).2.innerObjects = d.innerObjects ∧
    (GeometryData.setActiveCollisionPairsBody m map upper k d).2.outerObjects = d.outerObjects := by
  unfold GeometryData.setActiveCollisionPairsBody MatrixXb.get
  cases hp : m.collisionPairs[k]? with
  | none => exact ⟨rfl, rfl⟩
  | some cp =>
    cases upper <;> simp only [if_true, if_false, Bool.false_eq_true] <;>
      split_ifs <;> exact ⟨rfl, rfl⟩

theorem setActiveCollisionPairs_maps (d : GeometryData) (m : GeometryModel) (map : MatrixXb)
    (upper : Bool) :
    (d.setActiveCollisionPairs m map upper).2.innerObjects = d.innerObjects ∧
    (d.setActiveCollisionPairs m map upper).2.outerObjects = d.outerObjects := by
  unfold GeometryData.setActiveCollisionPairs
  simp only []
  split_ifs
  · exact ⟨rfl, rfl⟩
  · exact ⟨rfl, rfl⟩
  · exact ⟨rfl, rfl⟩
  · exact forEach_state_inv _
      (fun s => s.innerObjects = d.innerObjects ∧ s.outerObjects = d.outerObjects)
      (fun x s hs => by
        have h := setActiveCollisionPairsBody_maps m map upper x s
        exact ⟨h.1.trans hs.1, h.2.trans hs.2⟩)
      _ d ⟨rfl, rfl⟩

theorem activateCollisionPair_maps (d : GeometryData) (pairId : Nat) :
    (d.activateCollisionPair pairId).2.innerObjects = d.innerObjects ∧
    (d.activateCollisionPair pairId).2.outerObjects = d.outerObjects := by
  unfold GeometryData.activateCollisionPair
  split_ifs <;> exact ⟨rfl, rfl⟩

theorem deactivateCollisionPair_maps (d : GeometryData) (pairId : Nat) :
    (d.deactivateCollisionPair pairId).2.innerObjects = d.innerObjects ∧
    (d.deactivateCollisionPair pairId).2.outerObjects = d.outerObjects := by
  unfold GeometryData.deactivateCollisionPair
  split_ifs <;> exact ⟨rfl, rfl⟩

theorem StateOver.maps {m : GeometryModel} {d : GeometryData} (h : StateOver m d) :
    ∃ d0 : GeometryData, GeometryData.GeometryData m = .ok d0 ∧
      d.innerObjects = d0.innerObjects ∧ d.outerObjects = d0.outerObjects := by
  induction h with
  | construct hc => exact ⟨_, hc, rfl, rfl⟩
  | @activateCollisionPair d1 pairId _ ih =>
    obtain ⟨d0, h0, h1, h2⟩ := ih
    have hm := activateCollisionPair_maps d1 pairId
    exact ⟨d0, h0, hm.1.trans h1, hm.2.trans h2⟩
  | @deactivateCollisionPair d1 pairId _ ih =>
    obtain ⟨d0, h0, h1, h2⟩ := ih
    have hm := deactivateCollisionPair_maps d1 pairId
    exact ⟨d0, h0, hm.1.trans h1, hm.2.trans h2⟩
  | activateAllCollisionPairs _ ih =>
    obtain ⟨d0, h0, h1, h2⟩ := ih
    exact ⟨d0, h0, h1, h2⟩
  | deactivateAllCollisionPairs _ ih =>
    obtain ⟨d0, h0, h1, h2⟩ := ih
    exact ⟨d0, h0, h1, h2⟩
  | @setActiveCollisionPairs d1 map upper _ _ ih =>
    obtain ⟨d0, h0, h1, h2⟩ := ih
    have hm := setActiveCollisionPairs_maps d1 m map upper
    exact ⟨d0, h0, hm.1.trans h1, hm.2.trans h2⟩

/-- C18, as amended: in every runtime state obtained from the construction
over a catalog followed by any sequence of `activateCollisionPair`,
`deactivateCollisionPair`, `activateAllCollisionPairs`,
`deactivateAllCollisionPairs` and `setActiveCollisionPairs` calls against that
catalog, the outer list of each joint `J` is the list, in pair-list order, of
the second geometries of all the pairs of the catalog, active or not, whose
first geometry has parent joint `J`; the inner and the outer map are the ones
the constructor computed: the activation calls leave both unchanged. -/
theorem outer_index_all_pairs (m : GeometryModel) (d : GeometryData) (h : StateOver m d) :
    (∀ joint : Nat, (mapFind d.outerObjects joint).getD [] =
      (m.collisionPairs.filter
        (fun p => decide (m.parentJointAt p.first = some joint))).map (fun p => p.second)) ∧
    (∃ d0 : GeometryData, GeometryData.GeometryData m = .ok d0 ∧
      d.innerObjects = d0.innerObjects ∧ d.outerObjects = d0.outerObjects) ∧
    (∀ joint : Nat, (mapFind d.innerObjects joint).getD [] =
      (List.range m.geometryObjects.length).filter
        (fun g => decide (m.parentJointAt g = some joint))) := by
  obtain ⟨d0, h0, h1, h2⟩ := h.maps
  refine ⟨?_, ⟨d0, h0, h1, h2⟩, ?_⟩
  · intro joint
    rw [h2]
    exact construct_outer m d0 h0 joint
  · intro joint
    rw [h1]
    exact construct_inner m d0 h0 joint

/-- Witness of C18 (amended): after `deactivateAllCollisionPairs` on the state
constructed for the catalog `{A->1, B->1, C->2}` with pairs `[(0,2),(1,2)]`,
the outer list of joint 1 is still `[2,2]`, the inner list of joint 1 is still
`[0,1]`, and both maps are those of the constructed state. -/
theorem outer_index_all_pairs_witness :
    StateOver pairedCatalog pairedState.deactivateAllCollisionPairs ∧
    (mapFind pairedState.deactivateAllCollisionPairs.outerObjects 1).getD [] = [2, 2] ∧
    (mapFind pairedState.deactivateAllCollisionPairs.innerObjects 1).getD [] = [0, 1] ∧
    (∃ d0 : GeometryData, GeometryData.GeometryData pairedCatalog = .ok d0 ∧
      pairedState.deactivateAllCollisionPairs.innerObjects = d0.innerObjects ∧
      pairedState.deactivateAllCollisionPairs.outerObjects = d0.outerObjects) := by
  have hs : StateOver pairedCatalog pairedState.deactivateAllCollisionPairs :=
    StateOver.deactivateAllCollisionPairs (StateOver.construct pairedState_eq)
  obtain ⟨hout, hsame, hin⟩ := outer_index_all_pairs pairedCatalog _ hs
  refine ⟨hs, ?_, ?_, hsame⟩
  · rw [hout 1]
    decide
  · rw [hin 1]
    decide

/-- C18, as stated, fails: after `deactivateAllCollisionPairs` on the state
constructed for the catalog `{A->1, B->1, C->2}` with pairs `[(0,2),(1,2)]` no
pair is active, so no geometry is on the far side of an active pair of joint
1, yet the outer list of joint 1 is still `[2,2]`. -/
theorem outer_index_active_counterexample :
    StateOver pairedCatalog pairedState.deactivateAllCollisionPairs ∧
    pairedState.deactivateAllCollisionPairs.activeCollisionPairs = [false, false] ∧
    activeOuter pairedCatalog pairedState.deactivateAllCollisionPairs 1 = [] ∧
    (mapFind pairedState.deactivateAllCollisionPairs.outerObjects 1).getD [] = [2, 2] ∧
    ¬ (∀ joint : Nat,
        (mapFind pairedState.deactivateAllCollisionPairs.outerObjects joint).getD [] =
          activeOuter pairedCatalog pairedState.deactivateAllCollisionPairs joint) := by
  refine ⟨StateOver.deactivateAllCollisionPairs (StateOver.construct pairedState_eq),
    by decide, by decide, by decide, ?_⟩
  intro hall
  exact absurd (hall 1) (by decide)

end Pinocchio
